import Mathlib

/-!
Verification development for the pyvlx keep-alive core: the `Heartbeat`
supervisor (`pyvlx/heartbeat.py`) and the minimal frame contract it
depends on (`pyvlx/api/frames/frame_house_status_monitor_enable_req.py`).

The Python code is shallowly embedded:
* frame construction and the pulse body become pure Lean functions;
* the asyncio supervisor (one loop task, one stop caller, timer
  callbacks and a simulated clock) becomes a labelled transition system
  on an explicit `HeartbeatState`, with one transition per run of a
  coroutine between suspension points, exactly following the statements
  of `heartbeat.py`.
-/

namespace Pyvlx

/-! ## Commands and frames -/

/-- Protocol command identifiers (`pyvlx.const.Command`).  The catalog is
external; the source under scrutiny names exactly one member, so the rest
is a generic code. -/
inductive Command where
  | GW_HOUSE_STATUS_MONITOR_ENABLE_REQ
  | otherCommand (code : Nat)
deriving DecidableEq, Repr

namespace FrameHouseStatusMonitorEnableRequest

/-- `FrameHouseStatusMonitorEnableRequest.PAYLOAD_LEN = 0` from the source. -/
def PAYLOAD_LEN : Nat := 0

/-- The command the frame is constructed against
(`super().__init__(Command.GW_HOUSE_STATUS_MONITOR_ENABLE_REQ)`). -/
def command : Command := Command.GW_HOUSE_STATUS_MONITOR_ENABLE_REQ

end FrameHouseStatusMonitorEnableRequest

/-- Modelled from the spec: the per-command declared payload length used by
frame validation (`FrameBase` is imported by the source but its file is not
part of the sources given; the spec defines `declared_payload_length`).
The one command whose frame class is in the sources declares length
`PAYLOAD_LEN = 0`; lengths of out-of-scope commands are a parameter. -/
def declaredPayloadLength (otherLen : Nat → Nat) : Command → Nat
  | Command.GW_HOUSE_STATUS_MONITOR_ENABLE_REQ =>
      FrameHouseStatusMonitorEnableRequest.PAYLOAD_LEN
  | Command.otherCommand c => otherLen c

/-- Failure of frame construction when the payload length does not match
the command's declared length. -/
inductive ProtocolEncodingError where
  | payloadLengthMismatch (expected got : Nat)
deriving DecidableEq, Repr

/-- One outbound frame: a command plus its payload. -/
structure FrameEnvelope where
  command : Command
  payload : List Nat
deriving DecidableEq, Repr

/-- Modelled from the spec: `build(command, payload)` constructs a
`FrameEnvelope` and fails with `ProtocolEncodingError` exactly when
`len(payload) != declared_payload_length(command)` (the validation lives in
the external `FrameBase`). -/
def build (dpl : Command → Nat) (cmd : Command) (payload : List Nat) :
    Except ProtocolEncodingError FrameEnvelope :=
  if payload.length = dpl cmd then
    Except.ok { command := cmd, payload := payload }
  else
    Except.error (ProtocolEncodingError.payloadLengthMismatch (dpl cmd) payload.length)

/-! ## Exceptions, nodes and the pulse body -/

/-- Exceptions that can escape an `ApiCall`: the library's own
`PyVLXException` (carrying its message) or any foreign exception. -/
inductive Exc where
  | pyvlxException (msg : String)
  | otherExc
deriving DecidableEq, Repr

/-- The loop's `except PyVLXException: pass` clause catches exactly the
library exception. -/
def caughtByLoop : Exc → Bool
  | Exc.pyvlxException _ => true
  | Exc.otherExc => false

/-- One entry of the external node registry, as the supervisor reads it:
its id and whether `isinstance(node, Blind)` holds. -/
structure NodeEntry where
  node_id : Nat
  isBlindDevice : Bool
deriving DecidableEq, Repr

/-- The ApiCalls `pulse` can issue, in order of issuance. -/
inductive ApiCallRecord where
  | getState
  | statusRequest (node_id : Nat)
deriving DecidableEq, Repr

def isStatusRequest : ApiCallRecord → Bool
  | ApiCallRecord.getState => false
  | ApiCallRecord.statusRequest _ => true

/-- The `for node in self.pyvlx.nodes` loop of `Heartbeat.pulse`: for each
`Blind` entry issue a `StatusRequest(pyvlx, node.node_id)` ApiCall, whose
`do_api_call` may itself raise (`statusResult` gives the raised exception,
if any; the call is recorded as issued either way). -/
def pulseFollowUps (statusResult : Nat → Option Exc) :
    List NodeEntry → List ApiCallRecord → Except Exc Unit × List ApiCallRecord
  | [], acc => (Except.ok (), acc)
  | n :: rest, acc =>
      if n.isBlindDevice then
        match statusResult n.node_id with
        | some e => (Except.error e, acc ++ [ApiCallRecord.statusRequest n.node_id])
        | none => pulseFollowUps statusResult rest (acc ++ [ApiCallRecord.statusRequest n.node_id])
      else
        pulseFollowUps statusResult rest acc

/-- `Heartbeat.pulse`: issue the `GetState` ApiCall; if it does not report
success, raise `PyVLXException("Unable to send get state.")`; otherwise run
the Blind compensation loop.  Returns the outcome together with the list of
issued ApiCalls. -/
def pulse (getStateSuccess : Bool) (statusResult : Nat → Option Exc)
    (nodes : List NodeEntry) : Except Exc Unit × List ApiCallRecord :=
  if getStateSuccess then
    pulseFollowUps statusResult nodes [ApiCallRecord.getState]
  else
    (Except.error (Exc.pyvlxException "Unable to send get state."),
      [ApiCallRecord.getState])

/-- When no follow-up call raises, the compensation loop succeeds and
appends exactly one status request per Blind entry, in registry order. -/
theorem pulseFollowUps_none (nodes : List NodeEntry) (acc : List ApiCallRecord) :
    pulseFollowUps (fun _ => none) nodes acc =
      (Except.ok (),
        acc ++ (nodes.filter (fun n => n.isBlindDevice)).map
          (fun n => ApiCallRecord.statusRequest n.node_id)) := by
  induction nodes generalizing acc with
  | nil => simp [pulseFollowUps]
  | cons n rest ih =>
      by_cases hb : n.isBlindDevice
      · simp [pulseFollowUps, hb, ih, List.append_assoc]
      · simp [pulseFollowUps, hb, ih]

theorem countP_status_of_map (l : List NodeEntry) :
    ((l.map (fun n => ApiCallRecord.statusRequest n.node_id)).countP
      (fun c => isStatusRequest c)) = l.length := by
  induction l with
  | nil => rfl
  | cons n rest ih => simp [List.countP_cons, isStatusRequest, ih]

/-- Claim C3: a pulse whose "get state" call succeeds (and whose follow-up
calls return) issues exactly one status-request ApiCall per Blind entry of
the registry, keyed by that entry's node id, and none for other entries:
the issued calls are the get-state call followed by the status requests of
precisely the Blind entries in order. -/
theorem pulse_status_request_fanout (nodes : List NodeEntry) :
    (pulse true (fun _ => none) nodes).2 =
      ApiCallRecord.getState ::
        (nodes.filter (fun n => n.isBlindDevice)).map
          (fun n => ApiCallRecord.statusRequest n.node_id) ∧
    ((pulse true (fun _ => none) nodes).2.countP (fun c => isStatusRequest c)) =
      (nodes.filter (fun n => n.isBlindDevice)).length ∧
    (pulse true (fun _ => none) nodes).1 = Except.ok () := by
  refine ⟨?_, ?_, ?_⟩
  · simp [pulse, pulseFollowUps_none]
  · simp [pulse, pulseFollowUps_none, List.countP_cons, isStatusRequest,
      countP_status_of_map]
  · simp [pulse, pulseFollowUps_none]

/-- Claim C4: with follow-up calls that do not raise, `pulse` raises iff the
"get state" call does not report success; on a failed "get state" (whatever
the follow-ups would have done) it raises the library's
`PyVLXException("Unable to send get state.")` and issues no status-request
call at all. -/
theorem pulse_raises_iff_get_state_fails (statusResult : Nat → Option Exc)
    (nodes : List NodeEntry) :
    (pulse true (fun _ => none) nodes).1 = Except.ok () ∧
    (pulse false statusResult nodes).1 =
      Except.error (Exc.pyvlxException "Unable to send get state.") ∧
    (pulse false statusResult nodes).2 = [ApiCallRecord.getState] := by
  refine ⟨?_, rfl, rfl⟩
  simp [pulse, pulseFollowUps_none]

/-- Claim C7: frame construction succeeds exactly when the payload length
equals the command's declared payload length; the zero-payload
"enable house status monitor" frame (declared length 0) builds with the
empty payload and fails with `ProtocolEncodingError` on a one-byte
payload. -/
theorem build_succeeds_iff_payload_length_matches (dpl : Command → Nat)
    (cmd : Command) (payload : List Nat) (otherLen : Nat → Nat) :
    (build dpl cmd payload).isOk = decide (payload.length = dpl cmd) ∧
    build (declaredPayloadLength otherLen)
        FrameHouseStatusMonitorEnableRequest.command [] =
      Except.ok { command := FrameHouseStatusMonitorEnableRequest.command,
                  payload := [] } ∧
    build (declaredPayloadLength otherLen)
        FrameHouseStatusMonitorEnableRequest.command [1] =
      Except.error (ProtocolEncodingError.payloadLengthMismatch 0 1) := by
  refine ⟨?_, rfl, rfl⟩
  by_cases h : payload.length = dpl cmd <;> simp [build, h, Except.isOk, Except.toBool]

/-! ## The heartbeat supervisor as a labelled transition system

`Heartbeat.loop` runs as one asyncio task; `Heartbeat.stop`'s caller is a
second task; `loop_timeout` is a timer callback.  asyncio is single
threaded, so each transition below runs one piece of code between two
suspension points, atomically, exactly as written in `heartbeat.py`. -/

/-- Status of one `asyncio.TimerHandle` produced by `call_later`. -/
inductive TimerStatus where
  | pending
  | fired
  | cancelled
deriving DecidableEq, Repr

/-- One timer: its status and the simulated time at which it is due. -/
structure Timer where
  status : TimerStatus
  deadline : Nat
deriving DecidableEq, Repr

/-- Suspension points of the `loop()` coroutine.  `noTask` means the task
was never created; `dead` means it terminated with an uncaught
exception. -/
inductive LoopPc where
  | noTask
  | atWhile
  | waiting
  | pulsing
  | finished
  | dead
deriving DecidableEq, Repr

/-- State of the caller of `stop()`. -/
inductive StopPc where
  | notCalled
  | waitingStopped
  | returned
deriving DecidableEq, Repr

/-- The whole system state: the `Heartbeat` fields from `__init__`
(`stopped`, `loop_event`, `stopped_event`, `timeout_handle`,
`timeout_in_seconds`), every timer ever created by `call_later`
(identified by its index), both coroutines' positions, the log of
simulated times at which pulses began, and the simulated clock. -/
structure HeartbeatState where
  stopped : Bool
  loopEvent : Bool
  stoppedEvent : Bool
  timeoutHandle : Option Nat
  timers : List Timer
  loopPc : LoopPc
  stopPc : StopPc
  pulseLog : List Nat
  now : Nat
  timeoutInSeconds : Nat
  destroyed : Bool
deriving DecidableEq, Repr

/-- `Heartbeat.__init__`: both events unset, no task, no timer handle. -/
def init (T : Nat) : HeartbeatState :=
  { stopped := false, loopEvent := false, stoppedEvent := false,
    timeoutHandle := none, timers := [], loopPc := LoopPc.noTask,
    stopPc := StopPc.notCalled, pulseLog := [], now := 0,
    timeoutInSeconds := T, destroyed := false }

/-- Look a timer up by its handle (index). -/
def timerAt : List Timer → Nat → Option Timer
  | [], _ => none
  | t :: _, 0 => some t
  | _ :: ts, n + 1 => timerAt ts n

/-- Update the status of the timer at an index. -/
def markTimer : List Timer → Nat → (TimerStatus → TimerStatus) → List Timer
  | [], _, _ => []
  | t :: ts, 0, f => { t with status := f t.status } :: ts
  | t :: ts, n + 1, f => t :: markTimer ts n f

/-- `TimerHandle.cancel()`: a pending timer becomes cancelled; cancelling a
handle that already fired changes nothing observable. -/
def cancelStatus : TimerStatus → TimerStatus
  | TimerStatus.pending => TimerStatus.cancelled
  | s => s

/-- Number of still-pending timers. -/
def pendingCount : List Timer → Nat
  | [] => 0
  | t :: ts => (if t.status = TimerStatus.pending then 1 else 0) + pendingCount ts

/-- `Heartbeat.cancel_loop_timeout`: if a handle is held, cancel it and
drop the reference. -/
def cancelLoopTimeout (s : HeartbeatState) : HeartbeatState :=
  match s.timeoutHandle with
  | none => s
  | some i =>
      { s with timers := markTimer s.timers i cancelStatus, timeoutHandle := none }

/-- The code after `loop()`'s `while`: `self.cancel_loop_timeout()` then
`self.stopped_event.set()`, and the coroutine finishes. -/
def cleanupExit (s : HeartbeatState) : HeartbeatState :=
  { cancelLoopTimeout s with stoppedEvent := true, loopPc := LoopPc.finished }

deriving instance DecidableEq for Except

/-- Transition labels: which actor runs next.

* `startL`: a caller invokes `start()` (synchronous).
* `stopCallL`: a caller invokes `stop()`; its synchronous prefix runs
  (`stopped = True`, `loop_event.set()`) and it suspends on
  `stopped_event.wait()`.
* `stopResumeL`: the suspended `stop()` caller resumes once
  `stopped_event` is set, and `stop()` returns.
* `loopRunL`: the loop task runs from its suspension point to the next.
* `pulseDoneL r`: the in-flight `pulse()` completes with outcome `r`; the
  `try/except PyVLXException` around it decides what happens.
* `fireL i`: timer `i` is due and its callback `loop_timeout` runs.
* `advanceL d`: the simulated clock advances by `d`.
* `destroyL`: the object is finalized (`__del__`), possible only when no
  task or stop caller still references it. -/
inductive Label where
  | startL
  | stopCallL
  | stopResumeL
  | loopRunL
  | pulseDoneL (r : Except Exc Unit)
  | fireL (i : Nat)
  | advanceL (d : Nat)
  | destroyL
deriving DecidableEq, Repr

/-- One transition.  A label whose actor is not enabled leaves the state
unchanged. -/
def applyLabel (s : HeartbeatState) : Label → HeartbeatState
  | Label.startL =>
      -- start(): stopped = False; stopped_event.clear(); create_task(loop())
      -- The source start() is unguarded; any not-Running supervisor (never
      -- started, loop exited, or loop dead) gets a fresh loop task.  Note
      -- that start() does NOT clear loop_event: a stale wake signal
      -- survives into the new task.
      if (s.loopPc = LoopPc.noTask ∨ s.loopPc = LoopPc.finished ∨
            s.loopPc = LoopPc.dead) ∧ s.destroyed = false then
        { s with stopped := false, stoppedEvent := false, loopPc := LoopPc.atWhile }
      else s
  | Label.stopCallL =>
      -- stop(): stopped = True; loop_event.set(); await stopped_event.wait()
      if s.stopPc = StopPc.notCalled ∧ s.destroyed = false then
        { s with stopped := true, loopEvent := true, stopPc := StopPc.waitingStopped }
      else s
  | Label.stopResumeL =>
      if s.stopPc = StopPc.waitingStopped ∧ s.stoppedEvent = true then
        { s with stopPc := StopPc.returned }
      else s
  | Label.loopRunL =>
      match s.loopPc with
      | LoopPc.atWhile =>
          if s.stopped = true then cleanupExit s
          else
            -- timeout_handle = call_later(timeout_in_seconds, loop_timeout)
            { s with
                timers := s.timers ++
                  [{ status := TimerStatus.pending,
                     deadline := s.now + s.timeoutInSeconds }],
                timeoutHandle := some s.timers.length,
                loopPc := LoopPc.waiting }
      | LoopPc.waiting =>
          -- await loop_event.wait() resumes only once the event is set
          if s.loopEvent = true then
            if s.stopped = true then cleanupExit s
            else
              -- loop_event.clear(); await pulse() begins
              { s with loopEvent := false, loopPc := LoopPc.pulsing,
                       pulseLog := s.pulseLog ++ [s.now] }
          else s
      | _ => s
  | Label.pulseDoneL r =>
      if s.loopPc = LoopPc.pulsing then
        match r with
        | Except.ok _ => { s with loopPc := LoopPc.atWhile }
        | Except.error e =>
            if caughtByLoop e then { s with loopPc := LoopPc.atWhile }
            else { s with loopPc := LoopPc.dead }
      else s
  | Label.fireL i =>
      match timerAt s.timers i with
      | some t =>
          if t.status = TimerStatus.pending ∧ t.deadline ≤ s.now then
            -- the due timer runs loop_timeout: loop_event.set()
            { s with timers := markTimer s.timers i (fun _ => TimerStatus.fired),
                     loopEvent := true }
          else s
      | none => s
  | Label.advanceL d => { s with now := s.now + d }
  | Label.destroyL =>
      if s.destroyed = false ∧
          (s.loopPc = LoopPc.noTask ∨ s.loopPc = LoopPc.finished ∨
            s.loopPc = LoopPc.dead) ∧
          s.stopPc ≠ StopPc.waitingStopped then
        { cancelLoopTimeout s with destroyed := true }
      else s

/-- Execute a sequence of transitions. -/
def run (s : HeartbeatState) (ls : List Label) : HeartbeatState :=
  ls.foldl applyLabel s

/-- `start()` called on a fresh supervisor. -/
def startedInit (T : Nat) : HeartbeatState := applyLabel (init T) Label.startL

theorem run_nil (s : HeartbeatState) : run s [] = s := rfl

theorem run_cons (s : HeartbeatState) (l : Label) (ls : List Label) :
    run s (l :: ls) = run (applyLabel s l) ls := rfl

theorem run_append (s : HeartbeatState) (ls ls' : List Label) :
    run s (ls ++ ls') = run (run s ls) ls' := List.foldl_append ..

/-- Lift a per-step invariant to whole runs. -/
theorem run_invariant {P : HeartbeatState → Prop}
    (hstep : ∀ s l, P s → P (applyLabel s l)) :
    ∀ (ls : List Label) (s : HeartbeatState), P s → P (run s ls) := by
  intro ls
  induction ls with
  | nil => intro s hs; exact hs
  | cons l ls ih => intro s hs; exact ih _ (hstep s l hs)

/-- Lift an invariant preserved by a class of transitions to runs built
only from that class. -/
theorem run_invariant_cond {P : HeartbeatState → Prop} {Q : Label → Prop}
    (hstep : ∀ s l, Q l → P s → P (applyLabel s l)) :
    ∀ (ls : List Label) (s : HeartbeatState), (∀ l ∈ ls, Q l) → P s →
      P (run s ls) := by
  intro ls
  induction ls with
  | nil => intro s _ hs; exact hs
  | cons l ls ih =>
      intro s hq hs
      exact ih _ (fun l' hl' => hq l' (List.mem_cons_of_mem l hl'))
        (hstep s l (hq l (List.mem_cons_self l ls)) hs)

/-! ## Timer index lemmas -/

theorem timerAt_append_one (ts : List Timer) (x : Timer) (j : Nat) :
    timerAt (ts ++ [x]) j = if j = ts.length then some x else timerAt ts j := by
  induction ts generalizing j with
  | nil => cases j <;> simp [timerAt]
  | cons t ts ih =>
      cases j with
      | zero => simp [timerAt]
      | succ n => simpa [timerAt, Nat.succ_eq_add_one] using ih n

theorem timerAt_markTimer (ts : List Timer) (i : Nat) (f : TimerStatus → TimerStatus)
    (j : Nat) :
    timerAt (markTimer ts i f) j =
      if j = i then (timerAt ts i).map (fun t => { t with status := f t.status })
      else timerAt ts j := by
  induction ts generalizing i j with
  | nil => simp [markTimer, timerAt]
  | cons t ts ih =>
      cases i with
      | zero => cases j <;> simp [markTimer, timerAt]
      | succ m =>
          cases j with
          | zero => simp [markTimer, timerAt]
          | succ n => simpa [markTimer, timerAt, Nat.succ_eq_add_one] using ih m n

/-- No timer of the list is pending. -/
def noPending (ts : List Timer) : Prop :=
  ∀ i t, timerAt ts i = some t → t.status ≠ TimerStatus.pending

theorem noPending_nil : noPending [] := by
  intro i t h
  cases i <;> simp [timerAt] at h

theorem pendingCount_eq_zero (ts : List Timer) (h : noPending ts) :
    pendingCount ts = 0 := by
  induction ts with
  | nil => rfl
  | cons t ts ih =>
      have ht : t.status ≠ TimerStatus.pending := h 0 t rfl
      have htail : noPending ts := fun i u hu => h (i + 1) u (by simpa [timerAt] using hu)
      simp [pendingCount, ht, ih htail]

theorem pendingCount_le_one (ts : List Timer) (k : Nat)
    (h : ∀ j t, timerAt ts j = some t → t.status = TimerStatus.pending → j = k) :
    pendingCount ts ≤ 1 := by
  induction ts generalizing k with
  | nil => simp [pendingCount]
  | cons t ts ih =>
      by_cases hp : t.status = TimerStatus.pending
      · have hk : k = 0 := (h 0 t rfl hp).symm
        have htail : noPending ts := by
          intro i u hu hp'
          have := h (i + 1) u (by simpa [timerAt] using hu) hp'
          omega
        simp [pendingCount, hp, pendingCount_eq_zero ts htail]
      · have htail : ∀ j u, timerAt ts j = some u → u.status = TimerStatus.pending →
            j = k - 1 := by
          intro j u hu hp'
          have := h (j + 1) u (by simpa [timerAt] using hu) hp'
          omega
        simpa [pendingCount, hp] using ih (k - 1) htail

/-! ## Claim C2: `stop()` on a never-started supervisor

`stop()` sets the stop flag and the wake signal, then suspends on
`stopped_event.wait()`.  With no loop task, nothing ever sets
`stopped_event` — not even a later `start()` (which clears the flag again,
so the loop can never reach its exit code).  The stop caller therefore
suspends forever: the code deadlocks where the spec requires a prompt
return. -/

/-- Invariant after `stop()` was invoked on a never-started supervisor:
the stop caller stays suspended and the stop-complete signal stays unset. -/
def StopBeforeStartInv (s : HeartbeatState) : Prop :=
  s.stoppedEvent = false ∧ s.stopPc = StopPc.waitingStopped ∧
    (s.loopPc = LoopPc.noTask ∨ s.stopped = false)

theorem stopBeforeStartInv_step (s : HeartbeatState) (l : Label)
    (h : StopBeforeStartInv s) : StopBeforeStartInv (applyLabel s l) := by
  obtain ⟨st, le, se, th, tm, lp, sp, pl, no, ti, de⟩ := s
  obtain ⟨he, hw, hd⟩ := h
  simp only [StopBeforeStartInv] at hd ⊢
  subst he hw
  cases l with
  | fireL i =>
      rcases hti : timerAt tm i with _ | t
      · simp [applyLabel, hti, hd]
      · by_cases hg : t.status = TimerStatus.pending ∧ t.deadline ≤ no <;>
          simp [applyLabel, hti, hg, hd]
  | pulseDoneL r =>
      rcases r with e | u
      · cases e <;> cases lp <;> cases st <;>
          simp_all [applyLabel, caughtByLoop]
      · cases lp <;> cases st <;>
          simp_all [applyLabel]
  | _ =>
      cases lp <;> cases st <;> cases de <;> cases le <;>
        simp_all [applyLabel, cleanupExit, cancelLoopTimeout]

/-- Claim C2 (the code violates it): after `stop()` is invoked on a
never-started supervisor, under every continuation whatsoever — including
a later `start()` and arbitrarily many loop, timer and clock steps — the
stop caller is still suspended on `stopped_event.wait()` and the
stop-complete signal is still unset: `stop()` never returns. -/
theorem stop_never_started_blocks_forever (T : Nat) (ls : List Label) :
    (run (applyLabel (init T) Label.stopCallL) ls).stopPc = StopPc.waitingStopped ∧
    (run (applyLabel (init T) Label.stopCallL) ls).stoppedEvent = false := by
  have h0 : StopBeforeStartInv (applyLabel (init T) Label.stopCallL) := by
    refine ⟨?_, ?_, Or.inl ?_⟩ <;> simp [applyLabel, init]
  have h := run_invariant stopBeforeStartInv_step ls _ h0
  exact ⟨h.2.1, h.1⟩

/-! ## Claim C6: the single-pending-timer invariant

The claim quantifies over every sequence of supervisor operations.  The
sequence "call `stop()` first, then `start()`" refutes it: the early stop
leaves `loop_event` set; the freshly started loop then arms a timer, sees
the stale wake signal at once, pulses, and arms a second timer while the
first is still pending (`loop()` assigns `timeout_handle` without
cancelling). -/

/-- Counterexample to claim C6 as stated: after
`stop(); start(); <loop runs one cycle>` the supervisor holds two pending
timers at once — and likewise after a restart following a completed stop,
`start(); stop(); <loop exits>; start(); <loop runs one cycle>`. -/
theorem two_pending_timers_reachable :
    pendingCount (run (init 5) [Label.stopCallL, Label.startL, Label.loopRunL,
      Label.loopRunL, Label.pulseDoneL (Except.ok ()),
      Label.loopRunL]).timers = 2 ∧
    pendingCount (run (init 5) [Label.startL, Label.stopCallL, Label.loopRunL,
      Label.stopResumeL, Label.startL, Label.loopRunL, Label.loopRunL,
      Label.pulseDoneL (Except.ok ()), Label.loopRunL]).timers = 2 := by
  refine ⟨by decide, by decide⟩

/-! ## The main safety invariant

`InvA` holds in every reachable state except those produced by the
degenerate "`stop()` before `start()`" ordering, for which
`StopBeforeStartInv` takes over (`start()` resets the stop flag while the
stale wake signal survives, which is exactly what breaks the timer
discipline there). -/

/-- The degenerate regime: a `start()` ran while a `stop()` was already
consumed (a stop before the first start, or a restart after a stop).  From
then on the stop flag can never be set again (the one `stop()` call was
used up), so the loop can never run its exit code and the stop-complete
signal stays unset forever. -/
def DegenerateInv (s : HeartbeatState) : Prop :=
  s.stoppedEvent = false ∧ s.stopPc ≠ StopPc.notCalled ∧
    (s.loopPc = LoopPc.noTask ∨ s.stopped = false)

theorem degenerateInv_step (s : HeartbeatState) (l : Label)
    (h : DegenerateInv s) : DegenerateInv (applyLabel s l) := by
  obtain ⟨st, le, se, th, tm, lp, sp, pl, no, ti, de⟩ := s
  obtain ⟨he, hsp, hd⟩ := h
  simp only [DegenerateInv] at hd ⊢
  subst he
  cases l with
  | fireL i =>
      rcases hti : timerAt tm i with _ | t
      · simp [applyLabel, hti, hsp, hd]
      · by_cases hg : t.status = TimerStatus.pending ∧ t.deadline ≤ no <;>
          simp [applyLabel, hti, hg, hsp, hd]
  | pulseDoneL r =>
      rcases r with e | u
      · cases e <;> cases lp <;> cases st <;>
          simp_all [applyLabel, caughtByLoop]
      · cases lp <;> cases st <;>
          simp_all [applyLabel]
  | _ =>
      cases th <;> cases sp <;> cases lp <;> cases st <;> cases de <;> cases le <;>
        simp_all [applyLabel, cleanupExit, cancelLoopTimeout]

structure InvA (s : HeartbeatState) : Prop where
  h1 : ∀ i t, timerAt s.timers i = some t → t.status = TimerStatus.pending →
        s.timeoutHandle = some i ∧ s.loopPc = LoopPc.waiting
  h2 : s.loopEvent = true → s.stopped = true ∨ noPending s.timers
  h3 : s.loopPc = LoopPc.atWhile ∨ s.loopPc = LoopPc.pulsing →
        s.stopped = false → s.loopEvent = false
  h4 : s.loopPc = LoopPc.noTask → s.stopPc = StopPc.notCalled → s.loopEvent = false
  h5 : s.stoppedEvent = true → s.loopPc = LoopPc.finished ∧ s.stopped = true ∧
        s.timeoutHandle = none ∧ noPending s.timers
  h6 : s.stopPc = StopPc.returned → s.stoppedEvent = true
  h7 : s.stopped = true → s.stopPc ≠ StopPc.notCalled
  h8 : s.loopPc = LoopPc.finished → s.stopPc ≠ StopPc.notCalled
  h9 : s.loopPc = LoopPc.dead → s.stopPc = StopPc.notCalled → s.loopEvent = false

/-- Every reachable state satisfies one of the two regimes. -/
def Inv (s : HeartbeatState) : Prop := InvA s ∨ DegenerateInv s

theorem invA_init (T : Nat) : InvA (init T) := by
  refine ⟨?_, ?_, ?_, ?_, ?_, ?_, ?_, ?_, ?_⟩ <;>
    first
      | (intro i t ht; simp [init, timerAt] at ht)
      | simp [init, noPending_nil]

theorem timeoutHandle_cancelLoopTimeout (s : HeartbeatState) :
    (cancelLoopTimeout s).timeoutHandle = none := by
  cases hth : s.timeoutHandle <;> simp [cancelLoopTimeout, hth]

theorem cancelStatus_ne_pending (st : TimerStatus) :
    cancelStatus st ≠ TimerStatus.pending := by
  cases st <;> simp [cancelStatus]

/-- If every pending timer is the one referenced by `timeout_handle`, then
`cancel_loop_timeout` leaves no pending timer. -/
theorem noPending_cancelLoopTimeout (s : HeartbeatState)
    (h : ∀ i t, timerAt s.timers i = some t → t.status = TimerStatus.pending →
      s.timeoutHandle = some i) :
    noPending (cancelLoopTimeout s).timers := by
  cases hth : s.timeoutHandle with
  | none =>
      intro i t ht hp
      have := h i t (by simpa [cancelLoopTimeout, hth] using ht) hp
      rw [hth] at this
      cases this
  | some k =>
      intro j t ht hp
      simp only [cancelLoopTimeout, hth] at ht
      rw [timerAt_markTimer] at ht
      by_cases hjk : j = k
      · rw [if_pos hjk] at ht
        cases hu : timerAt s.timers k with
        | none => rw [hu] at ht; cases ht
        | some u =>
            rw [hu] at ht
            simp only [Option.map_some'] at ht
            injection ht with ht'
            subst ht'
            simp only at hp
            exact cancelStatus_ne_pending u.status hp
      · rw [if_neg hjk] at ht
        have := h j t ht hp
        rw [hth] at this
        exact hjk (by injection this with h'; exact h'.symm) |>.elim

/-- Firing the unique pending timer leaves no pending timer. -/
theorem noPending_markTimer_fired (ts : List Timer) (i : Nat)
    (h : ∀ j t, timerAt ts j = some t → t.status = TimerStatus.pending → j = i) :
    noPending (markTimer ts i (fun _ => TimerStatus.fired)) := by
  intro j t ht hp
  rw [timerAt_markTimer] at ht
  by_cases hji : j = i
  · rw [if_pos hji] at ht
    cases hu : timerAt ts i with
    | none => rw [hu] at ht; cases ht
    | some u =>
        rw [hu] at ht
        simp only [Option.map_some'] at ht
        injection ht with ht'
        subst ht'
        simp only at hp
        cases hp
  · rw [if_neg hji] at ht
    exact hji (h j t ht hp)

@[simp] theorem cancelLoopTimeout_stopped (s : HeartbeatState) :
    (cancelLoopTimeout s).stopped = s.stopped := by
  cases hth : s.timeoutHandle <;> simp [cancelLoopTimeout, hth]

@[simp] theorem cancelLoopTimeout_loopEvent (s : HeartbeatState) :
    (cancelLoopTimeout s).loopEvent = s.loopEvent := by
  cases hth : s.timeoutHandle <;> simp [cancelLoopTimeout, hth]

@[simp] theorem cancelLoopTimeout_stoppedEvent (s : HeartbeatState) :
    (cancelLoopTimeout s).stoppedEvent = s.stoppedEvent := by
  cases hth : s.timeoutHandle <;> simp [cancelLoopTimeout, hth]

@[simp] theorem cancelLoopTimeout_loopPc (s : HeartbeatState) :
    (cancelLoopTimeout s).loopPc = s.loopPc := by
  cases hth : s.timeoutHandle <;> simp [cancelLoopTimeout, hth]

@[simp] theorem cancelLoopTimeout_stopPc (s : HeartbeatState) :
    (cancelLoopTimeout s).stopPc = s.stopPc := by
  cases hth : s.timeoutHandle <;> simp [cancelLoopTimeout, hth]

@[simp] theorem cancelLoopTimeout_pulseLog (s : HeartbeatState) :
    (cancelLoopTimeout s).pulseLog = s.pulseLog := by
  cases hth : s.timeoutHandle <;> simp [cancelLoopTimeout, hth]

@[simp] theorem cancelLoopTimeout_now (s : HeartbeatState) :
    (cancelLoopTimeout s).now = s.now := by
  cases hth : s.timeoutHandle <;> simp [cancelLoopTimeout, hth]

@[simp] theorem cancelLoopTimeout_timeoutInSeconds (s : HeartbeatState) :
    (cancelLoopTimeout s).timeoutInSeconds = s.timeoutInSeconds := by
  cases hth : s.timeoutHandle <;> simp [cancelLoopTimeout, hth]

@[simp] theorem cancelLoopTimeout_destroyed (s : HeartbeatState) :
    (cancelLoopTimeout s).destroyed = s.destroyed := by
  cases hth : s.timeoutHandle <;> simp [cancelLoopTimeout, hth]

/-- The loop-exit code preserves the main invariant (it runs only with the
stop flag set). -/
theorem invA_cleanupExit (s : HeartbeatState) (h : InvA s) (hst : s.stopped = true) :
    InvA (cleanupExit s) := by
  have hnp : noPending (cancelLoopTimeout s).timers :=
    noPending_cancelLoopTimeout s (fun i t ht hp => (h.h1 i t ht hp).1)
  refine ⟨?_, ?_, ?_, ?_, ?_, ?_, ?_, ?_, ?_⟩
  · intro i t ht hp
    exact absurd hp (hnp i t ht)
  · intro _
    left
    simpa [cleanupExit] using hst
  · intro hc _
    simp [cleanupExit] at hc
  · intro hc
    simp [cleanupExit] at hc
  · intro _
    refine ⟨by simp [cleanupExit], by simpa [cleanupExit] using hst, ?_, ?_⟩
    · simp [cleanupExit, timeoutHandle_cancelLoopTimeout]
    · simpa [cleanupExit] using hnp
  · intro _
    simp [cleanupExit]
  · intro _
    simpa [cleanupExit] using h.h7 hst
  · intro _
    simpa [cleanupExit] using h.h7 hst
  · intro hc
    simp [cleanupExit] at hc

/-- One transition preserves the main invariant, except that `start()` on a
supervisor whose `stop()` was already called (necessarily from the
never-started state) moves the system into the degenerate regime. -/
theorem invA_step (s : HeartbeatState) (l : Label) (h : InvA s) :
    InvA (applyLabel s l) ∨
      (l = Label.startL ∧ DegenerateInv (applyLabel s l)) := by
  obtain ⟨hh1, hh2, hh3, hh4, hh5, hh6, hh7, hh8, hh9⟩ := h
  cases l with
  | startL =>
      by_cases hg : (s.loopPc = LoopPc.noTask ∨ s.loopPc = LoopPc.finished ∨
          s.loopPc = LoopPc.dead) ∧ s.destroyed = false
      · have happ : applyLabel s Label.startL =
            { s with stopped := false, stoppedEvent := false,
                     loopPc := LoopPc.atWhile } := by
          simp only [applyLabel]
          rw [if_pos hg]
        have hnp : noPending s.timers := by
          intro i t ht hp
          have h2 := (hh1 i t ht hp).2
          rcases hg.1 with hc | hc | hc <;> rw [hc] at h2 <;> simp at h2
        rcases hsp : s.stopPc with _ | _ | _
        · -- stop() never consumed: a clean (re)start stays in the main
          -- regime, because the wake signal is provably clear here
          left
          have hev : s.loopEvent = false := by
            rcases hg.1 with hc | hc | hc
            · exact hh4 hc hsp
            · exact absurd hsp (hh8 hc)
            · exact hh9 hc hsp
          rw [happ]
          refine ⟨?_, ?_, ?_, ?_, ?_, ?_, ?_, ?_, ?_⟩
          · intro i t ht hp
            exact absurd hp (hnp i t ht)
          · intro hle
            simp only at hle
            rw [hev] at hle
            cases hle
          · intro _ _
            exact hev
          · intro hpc
            simp at hpc
          · intro hse
            simp at hse
          · intro hr
            simp only at hr
            rw [hsp] at hr
            cases hr
          · intro hst
            simp at hst
          · intro hpc
            simp at hpc
          · intro hpc
            simp at hpc
        · -- stop() already pending: degenerate regime
          right
          refine ⟨rfl, ?_⟩
          rw [happ]
          exact ⟨rfl, by simp [hsp], Or.inr rfl⟩
        · -- restart after a completed stop(): degenerate regime
          right
          refine ⟨rfl, ?_⟩
          rw [happ]
          exact ⟨rfl, by simp [hsp], Or.inr rfl⟩
      · left
        have hno : applyLabel s Label.startL = s := by
          simp only [applyLabel]
          rw [if_neg hg]
        rw [hno]
        exact ⟨hh1, hh2, hh3, hh4, hh5, hh6, hh7, hh8, hh9⟩
  | stopCallL =>
      by_cases hg : s.stopPc = StopPc.notCalled ∧ s.destroyed = false
      · left
        have happ : applyLabel s Label.stopCallL =
            { s with stopped := true, loopEvent := true,
                     stopPc := StopPc.waitingStopped } := by
          simp [applyLabel, hg.1, hg.2]
        rw [happ]
        refine ⟨?_, ?_, ?_, ?_, ?_, ?_, ?_, ?_, ?_⟩
        · intro i t ht hp
          exact hh1 i t ht hp
        · intro _
          exact Or.inl rfl
        · intro _ hst
          simp at hst
        · intro _ hsp
          simp at hsp
        · intro hse
          obtain ⟨ha, _, hc, hd⟩ := hh5 hse
          exact ⟨ha, rfl, hc, hd⟩
        · intro hr
          simp at hr
        · intro _
          simp
        · intro _
          simp
        · intro _ hsp
          simp at hsp
      · left
        have hno : applyLabel s Label.stopCallL = s := by simp [applyLabel, hg]
        rw [hno]
        exact ⟨hh1, hh2, hh3, hh4, hh5, hh6, hh7, hh8, hh9⟩
  | stopResumeL =>
      by_cases hg : s.stopPc = StopPc.waitingStopped ∧ s.stoppedEvent = true
      · left
        have happ : applyLabel s Label.stopResumeL =
            { s with stopPc := StopPc.returned } := by
          simp [applyLabel, hg.1, hg.2]
        rw [happ]
        refine ⟨?_, ?_, ?_, ?_, ?_, ?_, ?_, ?_, ?_⟩
        · intro i t ht hp
          exact hh1 i t ht hp
        · exact hh2
        · exact hh3
        · intro _ hsp
          simp at hsp
        · exact hh5
        · intro _
          exact hg.2
        · intro _
          simp
        · intro _
          simp
        · intro _ hsp
          simp at hsp
      · left
        have hno : applyLabel s Label.stopResumeL = s := by simp [applyLabel, hg]
        rw [hno]
        exact ⟨hh1, hh2, hh3, hh4, hh5, hh6, hh7, hh8, hh9⟩
  | loopRunL =>
      left
      rcases hpc : s.loopPc with _ | _ | _ | _ | _ | _
      case noTask =>
        have hno : applyLabel s Label.loopRunL = s := by simp [applyLabel, hpc]
        rw [hno]
        exact ⟨hh1, hh2, hh3, hh4, hh5, hh6, hh7, hh8, hh9⟩
      case atWhile =>
        by_cases hst : s.stopped = true
        · have happ : applyLabel s Label.loopRunL = cleanupExit s := by
            simp [applyLabel, hpc, hst]
          rw [happ]
          exact invA_cleanupExit s
            ⟨hh1, hh2, hh3, hh4, hh5, hh6, hh7, hh8, hh9⟩ hst
        · have hstf : s.stopped = false := by
            cases hs : s.stopped
            · rfl
            · exact absurd hs hst
          have happ : applyLabel s Label.loopRunL =
              { s with
                  timers := s.timers ++
                    [{ status := TimerStatus.pending,
                       deadline := s.now + s.timeoutInSeconds }],
                  timeoutHandle := some s.timers.length,
                  loopPc := LoopPc.waiting } := by
            simp [applyLabel, hpc, hstf]
          have hnp : noPending s.timers := by
            intro i t ht hp
            have h2 := (hh1 i t ht hp).2
            rw [hpc] at h2
            simp at h2
          have hev : s.loopEvent = false := hh3 (Or.inl hpc) hstf
          rw [happ]
          refine ⟨?_, ?_, ?_, ?_, ?_, ?_, ?_, ?_, ?_⟩
          · intro i t ht hp
            simp only at ht
            rw [timerAt_append_one] at ht
            by_cases hi : i = s.timers.length
            · exact ⟨by simp [hi], rfl⟩
            · rw [if_neg hi] at ht
              exact absurd hp (hnp i t ht)
          · intro hle
            simp only at hle
            rw [hev] at hle
            cases hle
          · intro hc _
            simp at hc
          · intro hc
            simp at hc
          · intro hse
            simp only at hse
            have := (hh5 hse).1
            rw [hpc] at this
            simp at this
          · intro hr
            simp only at hr
            exact hh6 hr
          · intro hs
            simp only at hs
            exact hh7 hs
          · intro hc
            simp at hc
          · intro hc
            simp at hc
      case waiting =>
        by_cases hev : s.loopEvent = true
        · by_cases hst : s.stopped = true
          · have happ : applyLabel s Label.loopRunL = cleanupExit s := by
              simp [applyLabel, hpc, hev, hst]
            rw [happ]
            exact invA_cleanupExit s
              ⟨hh1, hh2, hh3, hh4, hh5, hh6, hh7, hh8, hh9⟩ hst
          · have hstf : s.stopped = false := by
              cases hs : s.stopped
              · rfl
              · exact absurd hs hst
            have happ : applyLabel s Label.loopRunL =
                { s with loopEvent := false, loopPc := LoopPc.pulsing,
                         pulseLog := s.pulseLog ++ [s.now] } := by
              simp [applyLabel, hpc, hev, hstf]
            have hnp : noPending s.timers := by
              rcases hh2 hev with hs | hnp
              · rw [hstf] at hs; cases hs
              · exact hnp
            rw [happ]
            refine ⟨?_, ?_, ?_, ?_, ?_, ?_, ?_, ?_, ?_⟩
            · intro i t ht hp
              exact absurd hp (hnp i t ht)
            · intro hle
              simp at hle
            · intro _ _
              simp
            · intro hc
              simp at hc
            · intro hse
              simp only at hse
              have := (hh5 hse).1
              rw [hpc] at this
              simp at this
            · intro hr
              simp only at hr
              exact hh6 hr
            · intro hs
              simp only at hs
              exact hh7 hs
            · intro hc
              simp at hc
            · intro hc
              simp at hc
        · have hno : applyLabel s Label.loopRunL = s := by
            simp [applyLabel, hpc, hev]
          rw [hno]
          exact ⟨hh1, hh2, hh3, hh4, hh5, hh6, hh7, hh8, hh9⟩
      case pulsing =>
        have hno : applyLabel s Label.loopRunL = s := by simp [applyLabel, hpc]
        rw [hno]
        exact ⟨hh1, hh2, hh3, hh4, hh5, hh6, hh7, hh8, hh9⟩
      case finished =>
        have hno : applyLabel s Label.loopRunL = s := by simp [applyLabel, hpc]
        rw [hno]
        exact ⟨hh1, hh2, hh3, hh4, hh5, hh6, hh7, hh8, hh9⟩
      case dead =>
        have hno : applyLabel s Label.loopRunL = s := by simp [applyLabel, hpc]
        rw [hno]
        exact ⟨hh1, hh2, hh3, hh4, hh5, hh6, hh7, hh8, hh9⟩
  | pulseDoneL r =>
      left
      by_cases hg : s.loopPc = LoopPc.pulsing
      · have hnp : noPending s.timers := by
          intro i t ht hp
          have h2 := (hh1 i t ht hp).2
          rw [hg] at h2
          simp at h2
        have hfin : s.stoppedEvent = true → False := by
          intro hse
          have := (hh5 hse).1
          rw [hg] at this
          simp at this
        have hdead9 : s.stopPc = StopPc.notCalled → s.loopEvent = false := by
          intro hspc
          by_cases hst : s.stopped = true
          · exact absurd hspc (hh7 hst)
          · have hstf : s.stopped = false := by
              cases hs : s.stopped
              · rfl
              · exact absurd hs hst
            exact hh3 (Or.inr hg) hstf
        have main : ∀ pc' : LoopPc, pc' ≠ LoopPc.noTask →
            (pc' = LoopPc.atWhile ∨ pc' = LoopPc.pulsing → s.stopped = false →
              s.loopEvent = false) →
            pc' ≠ LoopPc.finished →
            (pc' = LoopPc.dead → s.stopPc = StopPc.notCalled →
              s.loopEvent = false) →
            InvA { s with loopPc := pc' } := by
          intro pc' hpc' h3' hm8 hm9
          refine ⟨?_, ?_, ?_, ?_, ?_, ?_, ?_, ?_, ?_⟩
          · intro i t ht hp
            exact absurd hp (hnp i t ht)
          · intro hle
            simp only at hle
            rcases hh2 hle with hs | hnp'
            · exact Or.inl hs
            · exact Or.inr hnp'
          · exact h3'
          · intro hc
            simp only at hc
            exact absurd hc hpc'
          · intro hse
            exact absurd hse hfin
          · intro hr
            simp only at hr
            exact hh6 hr
          · intro hs
            simp only at hs
            exact hh7 hs
          · intro hc
            simp only at hc
            exact absurd hc hm8
          · intro hc hspc
            simp only at hc hspc
            exact hm9 hc hspc
        rcases r with e | u
        · by_cases hc : caughtByLoop e = true
          · have happ : applyLabel s (Label.pulseDoneL (Except.error e)) =
                { s with loopPc := LoopPc.atWhile } := by
              simp [applyLabel, hg, hc]
            rw [happ]
            exact main LoopPc.atWhile (by simp) (fun _ => hh3 (Or.inr hg))
              (by simp) (by intro hd; simp at hd)
          · have happ : applyLabel s (Label.pulseDoneL (Except.error e)) =
                { s with loopPc := LoopPc.dead } := by
              simp [applyLabel, hg, hc]
            rw [happ]
            exact main LoopPc.dead (by simp) (by intro hd; simp at hd)
              (by simp) (fun _ => hdead9)
        · have happ : applyLabel s (Label.pulseDoneL (Except.ok u)) =
              { s with loopPc := LoopPc.atWhile } := by
            simp [applyLabel, hg]
          rw [happ]
          exact main LoopPc.atWhile (by simp) (fun _ => hh3 (Or.inr hg))
            (by simp) (by intro hd; simp at hd)
      · have hno : applyLabel s (Label.pulseDoneL r) = s := by
          cases r <;> simp [applyLabel, hg]
        rw [hno]
        exact ⟨hh1, hh2, hh3, hh4, hh5, hh6, hh7, hh8, hh9⟩
  | fireL i =>
      left
      rcases hti : timerAt s.timers i with _ | t
      · have hno : applyLabel s (Label.fireL i) = s := by simp [applyLabel, hti]
        rw [hno]
        exact ⟨hh1, hh2, hh3, hh4, hh5, hh6, hh7, hh8, hh9⟩
      · by_cases hg : t.status = TimerStatus.pending ∧ t.deadline ≤ s.now
        · have happ : applyLabel s (Label.fireL i) =
              { s with timers := markTimer s.timers i (fun _ => TimerStatus.fired),
                       loopEvent := true } := by
            simp [applyLabel, hti, hg.1, hg.2]
          obtain ⟨hhandle, hwait⟩ := hh1 i t hti hg.1
          have huniq : ∀ j u, timerAt s.timers j = some u →
              u.status = TimerStatus.pending → j = i := by
            intro j u hu hp
            have := (hh1 j u hu hp).1
            rw [hhandle] at this
            injection this with hji
            exact hji.symm
          have hnp' : noPending (markTimer s.timers i (fun _ => TimerStatus.fired)) :=
            noPending_markTimer_fired s.timers i huniq
          rw [happ]
          refine ⟨?_, ?_, ?_, ?_, ?_, ?_, ?_, ?_, ?_⟩
          · intro j u hu hp
            exact absurd hp (hnp' j u hu)
          · intro _
            exact Or.inr hnp'
          · intro hc _
            rcases hc with hc | hc <;>
              (simp only at hc; rw [hwait] at hc; cases hc)
          · intro hc
            simp only at hc
            rw [hwait] at hc
            cases hc
          · intro hse
            simp only at hse
            have := (hh5 hse).1
            rw [hwait] at this
            cases this
          · intro hr
            simp only at hr
            exact hh6 hr
          · intro hs
            simp only at hs
            exact hh7 hs
          · intro hc
            simp only at hc
            rw [hwait] at hc
            cases hc
          · intro hc
            simp only at hc
            rw [hwait] at hc
            cases hc
        · have hno : applyLabel s (Label.fireL i) = s := by simp [applyLabel, hti, hg]
          rw [hno]
          exact ⟨hh1, hh2, hh3, hh4, hh5, hh6, hh7, hh8, hh9⟩
  | advanceL d =>
      left
      have happ : applyLabel s (Label.advanceL d) = { s with now := s.now + d } := by
        simp [applyLabel]
      rw [happ]
      exact ⟨fun i t ht hp => hh1 i t ht hp, hh2, hh3, hh4, hh5, hh6, hh7, hh8, hh9⟩
  | destroyL =>
      left
      by_cases hg : s.destroyed = false ∧
          (s.loopPc = LoopPc.noTask ∨ s.loopPc = LoopPc.finished ∨
            s.loopPc = LoopPc.dead) ∧ s.stopPc ≠ StopPc.waitingStopped
      · have happ : applyLabel s Label.destroyL =
            { cancelLoopTimeout s with destroyed := true } := by
          simp only [applyLabel]
          rw [if_pos hg]
        have hnowait : s.loopPc ≠ LoopPc.waiting := by
          rcases hg.2.1 with hc | hc | hc <;> simp [hc]
        have hnp : noPending (cancelLoopTimeout s).timers :=
          noPending_cancelLoopTimeout s (fun i t ht hp => (hh1 i t ht hp).1)
        rw [happ]
        refine ⟨?_, ?_, ?_, ?_, ?_, ?_, ?_, ?_, ?_⟩
        · intro i t ht hp
          exact absurd hp (hnp i t ht)
        · intro _
          exact Or.inr hnp
        · intro hc hst
          simp only [cancelLoopTimeout_loopPc] at hc
          simp only [cancelLoopTimeout_stopped] at hst
          simpa using hh3 hc hst
        · intro hc hsp
          simp only [cancelLoopTimeout_loopPc] at hc
          simp only [cancelLoopTimeout_stopPc] at hsp
          simpa using hh4 hc hsp
        · intro hse
          simp only [cancelLoopTimeout_stoppedEvent] at hse
          obtain ⟨ha, hb, _, _⟩ := hh5 hse
          refine ⟨by simpa using ha, by simpa using hb, ?_, hnp⟩
          simp [timeoutHandle_cancelLoopTimeout]
        · intro hr
          simp only [cancelLoopTimeout_stopPc] at hr
          simpa using hh6 hr
        · intro hs
          simp only [cancelLoopTimeout_stopped] at hs
          simpa using hh7 hs
        · intro hc
          simp only [cancelLoopTimeout_loopPc] at hc
          simpa using hh8 hc
        · intro hc hsp
          simp only [cancelLoopTimeout_loopPc] at hc
          simp only [cancelLoopTimeout_stopPc] at hsp
          simpa using hh9 hc hsp
      · have hno : applyLabel s Label.destroyL = s := by
          simp only [applyLabel]
          rw [if_neg hg]
        rw [hno]
        exact ⟨hh1, hh2, hh3, hh4, hh5, hh6, hh7, hh8, hh9⟩

theorem inv_step (s : HeartbeatState) (l : Label) (h : Inv s) :
    Inv (applyLabel s l) := by
  rcases h with hA | hB
  · rcases invA_step s l hA with h' | ⟨_, h'⟩
    · exact Or.inl h'
    · exact Or.inr h'
  · exact Or.inr (degenerateInv_step s l hB)

theorem inv_run (T : Nat) (ls : List Label) : Inv (run (init T) ls) :=
  run_invariant (fun s l h => inv_step s l h) ls (init T) (Or.inl (invA_init T))

/-- No transition resurrects a task: a state whose loop task exists never
returns to `noTask`. -/
theorem loopPc_noTask_mono (s : HeartbeatState) (l : Label)
    (h : (applyLabel s l).loopPc = LoopPc.noTask) : s.loopPc = LoopPc.noTask := by
  obtain ⟨st, le, se, th, tm, lp, sp, pl, no, ti, de⟩ := s
  cases l with
  | fireL i =>
      rcases hti : timerAt tm i with _ | t
      · simpa [applyLabel, hti] using h
      · by_cases hg : t.status = TimerStatus.pending ∧ t.deadline ≤ no <;>
          simpa [applyLabel, hti, hg] using h
  | pulseDoneL r =>
      rcases r with e | u
      · cases e <;> cases lp <;> simp_all [applyLabel, caughtByLoop]
      · cases lp <;> simp_all [applyLabel]
  | _ =>
      cases th <;> cases lp <;> cases st <;> cases de <;> cases le <;> cases se <;>
        cases sp <;> simp_all [applyLabel, cleanupExit, cancelLoopTimeout]

/-- In the main regime the pending timers are exactly characterised by the
handle: at most one exists, and none unless the loop is suspended on its
wake signal. -/
theorem invA_pendingCount (s : HeartbeatState) (h : InvA s) :
    pendingCount s.timers ≤ 1 ∧
      (s.loopPc ≠ LoopPc.waiting → pendingCount s.timers = 0) := by
  constructor
  · cases hth : s.timeoutHandle with
    | none =>
        have hnp : noPending s.timers := by
          intro i t ht hp
          have := (h.h1 i t ht hp).1
          rw [hth] at this
          cases this
        simp [pendingCount_eq_zero s.timers hnp]
    | some k =>
        refine pendingCount_le_one s.timers k ?_
        intro j t ht hp
        have := (h.h1 j t ht hp).1
        rw [hth] at this
        injection this with hj
        exact hj.symm
  · intro hw
    have hnp : noPending s.timers := by
      intro i t ht hp
      exact hw ((h.h1 i t ht hp).2 ▸ rfl) |>.elim
    exact pendingCount_eq_zero s.timers hnp

theorem invA_startedInit (T : Nat) : InvA (startedInit T) := by
  have happ : startedInit T =
      { init T with stopped := false, stoppedEvent := false,
                    loopPc := LoopPc.atWhile } := by
    simp [startedInit, applyLabel, init]
  rw [happ]
  refine ⟨?_, ?_, ?_, ?_, ?_, ?_, ?_, ?_, ?_⟩ <;>
    first
      | (intro i t ht; simp [init, timerAt] at ht)
      | simp [init, noPending_nil]

/-- Claim C6, amended: for the states reached by one `start()` that is not
preceded by a `stop()` and not followed by a further `start()`, at most
one pending timer ever exists, and outside the loop's suspension on its
wake signal — in particular at the moments a new timer is armed or the
object may be finalized — none exists.  (Whenever a `start()` runs with
the wake signal left set by an earlier `stop()` — a stop before the first
start, or any restart after a stop — the loop can instead arm a second
timer while the first is still pending; see the counterexamples.) -/
theorem single_pending_timer_after_start (T : Nat) (ls : List Label)
    (hns : Label.startL ∉ ls) :
    pendingCount (run (startedInit T) ls).timers ≤ 1 ∧
    ((run (startedInit T) ls).loopPc ≠ LoopPc.waiting →
      pendingCount (run (startedInit T) ls).timers = 0) := by
  have hstep : ∀ s l, l ≠ Label.startL → InvA s → InvA (applyLabel s l) := by
    intro s l hl hA
    rcases invA_step s l hA with h' | ⟨hstart, _⟩
    · exact h'
    · exact absurd hstart hl
  have hinv := run_invariant_cond (Q := fun l => l ≠ Label.startL) hstep ls
    (startedInit T) (fun l hl he => hns (he ▸ hl)) (invA_startedInit T)
  exact invA_pendingCount _ hinv

/-! ## Claim C1: `stop()` returns only after full shutdown -/

/-- After the loop has exited (`stopped_event` set, handle dropped, no
pending timer), everything about the supervisor is frozen: no timer fires,
no pulse begins, the timer list never changes again. -/
def Halted (tm : List Timer) (pl : List Nat) (s : HeartbeatState) : Prop :=
  s.loopPc = LoopPc.finished ∧ s.timeoutHandle = none ∧
    s.timers = tm ∧ s.pulseLog = pl ∧ noPending tm

theorem halted_step (tm : List Timer) (pl : List Nat) (s : HeartbeatState)
    (l : Label) (hl : l ≠ Label.startL) (h : Halted tm pl s) :
    Halted tm pl (applyLabel s l) := by
  obtain ⟨hpc, hth, htm, hpl, hnp⟩ := h
  cases l with
  | startL => exact absurd rfl hl
  | stopCallL =>
      by_cases hg : s.stopPc = StopPc.notCalled ∧ s.destroyed = false
      · have happ : applyLabel s Label.stopCallL =
            { s with stopped := true, loopEvent := true,
                     stopPc := StopPc.waitingStopped } := by
          simp [applyLabel, hg.1, hg.2]
        rw [happ]
        exact ⟨hpc, hth, htm, hpl, hnp⟩
      · have hno : applyLabel s Label.stopCallL = s := by simp [applyLabel, hg]
        rw [hno]
        exact ⟨hpc, hth, htm, hpl, hnp⟩
  | stopResumeL =>
      by_cases hg : s.stopPc = StopPc.waitingStopped ∧ s.stoppedEvent = true
      · have happ : applyLabel s Label.stopResumeL =
            { s with stopPc := StopPc.returned } := by
          simp [applyLabel, hg.1, hg.2]
        rw [happ]
        exact ⟨hpc, hth, htm, hpl, hnp⟩
      · have hno : applyLabel s Label.stopResumeL = s := by simp [applyLabel, hg]
        rw [hno]
        exact ⟨hpc, hth, htm, hpl, hnp⟩
  | loopRunL =>
      have hno : applyLabel s Label.loopRunL = s := by simp [applyLabel, hpc]
      rw [hno]
      exact ⟨hpc, hth, htm, hpl, hnp⟩
  | pulseDoneL r =>
      have hno : applyLabel s (Label.pulseDoneL r) = s := by
        cases r <;> simp [applyLabel, hpc]
      rw [hno]
      exact ⟨hpc, hth, htm, hpl, hnp⟩
  | fireL i =>
      rcases hti : timerAt s.timers i with _ | t
      · have hno : applyLabel s (Label.fireL i) = s := by simp [applyLabel, hti]
        rw [hno]
        exact ⟨hpc, hth, htm, hpl, hnp⟩
      · have htp : t.status ≠ TimerStatus.pending := by
          rw [htm] at hti
          exact hnp i t hti
        have hno : applyLabel s (Label.fireL i) = s := by
          simp [applyLabel, hti, htp]
        rw [hno]
        exact ⟨hpc, hth, htm, hpl, hnp⟩
  | advanceL d =>
      have happ : applyLabel s (Label.advanceL d) = { s with now := s.now + d } := by
        simp [applyLabel]
      rw [happ]
      exact ⟨hpc, hth, htm, hpl, hnp⟩
  | destroyL =>
      have hcan : cancelLoopTimeout s = s := by simp [cancelLoopTimeout, hth]
      by_cases hg : s.destroyed = false ∧
          (s.loopPc = LoopPc.noTask ∨ s.loopPc = LoopPc.finished ∨
            s.loopPc = LoopPc.dead) ∧ s.stopPc ≠ StopPc.waitingStopped
      · have happ : applyLabel s Label.destroyL =
            { cancelLoopTimeout s with destroyed := true } := by
          simp only [applyLabel]
          rw [if_pos hg]
        rw [happ, hcan]
        exact ⟨hpc, hth, htm, hpl, hnp⟩
      · have hno : applyLabel s Label.destroyL = s := by
          simp only [applyLabel]
          rw [if_neg hg]
        rw [hno]
        exact ⟨hpc, hth, htm, hpl, hnp⟩

/-- Claim C1: in every reachable state in which `stop()` has returned —
with the stop-complete signal still set, i.e. before any restart — the
loop has fully exited and no timer is pending; and from such a state every
further behaviour that does not call `start()` again leaves the loop
exited, the timer list untouched (so no timer ever fires) and the pulse
log untouched (so no pulse ever begins). -/
theorem stop_returns_only_after_loop_exit (T : Nat) (ls ls' : List Label)
    (_hret : (run (init T) ls).stopPc = StopPc.returned)
    (hse : (run (init T) ls).stoppedEvent = true)
    (hns : Label.startL ∉ ls') :
    (run (init T) ls).loopPc = LoopPc.finished ∧
    pendingCount (run (init T) ls).timers = 0 ∧
    (run (run (init T) ls) ls').loopPc = LoopPc.finished ∧
    (run (run (init T) ls) ls').timers = (run (init T) ls).timers ∧
    (run (run (init T) ls) ls').pulseLog = (run (init T) ls).pulseLog := by
  rcases inv_run T ls with hA | hD
  · obtain ⟨hfin, _, hth, hnp⟩ := hA.h5 hse
    have h0 : Halted (run (init T) ls).timers (run (init T) ls).pulseLog
        (run (init T) ls) := ⟨hfin, hth, rfl, rfl, hnp⟩
    obtain ⟨hpc', _, htm', hpl', _⟩ :=
      run_invariant_cond (Q := fun l => l ≠ Label.startL)
        (fun s l hl hh => halted_step _ _ s l hl hh) ls' _
        (fun l hl he => hns (he ▸ hl)) h0
    exact ⟨hfin, pendingCount_eq_zero _ hnp, hpc', htm', hpl'⟩
  · rw [hD.1] at hse
    cases hse

/-! ## Claims C5 and C10: what the `try/except` around `pulse()` does -/

/-- Labels that do not deliver an uncaught exception to the loop. -/
def benign : Label → Bool
  | Label.pulseDoneL (Except.error e) => caughtByLoop e
  | _ => true

/-- A benign transition never kills the loop task. -/
theorem loopPc_dead_mono (s : HeartbeatState) (l : Label) (hb : benign l = true)
    (hd : (applyLabel s l).loopPc = LoopPc.dead) : s.loopPc = LoopPc.dead := by
  obtain ⟨st, le, se, th, tm, lp, sp, pl, no, ti, de⟩ := s
  cases l with
  | fireL i =>
      rcases hti : timerAt tm i with _ | t
      · simpa [applyLabel, hti] using hd
      · by_cases hg : t.status = TimerStatus.pending ∧ t.deadline ≤ no <;>
          simpa [applyLabel, hti, hg] using hd
  | pulseDoneL r =>
      rcases r with e | u
      · have hc : caughtByLoop e = true := by simpa [benign] using hb
        cases lp <;> simp_all [applyLabel]
      · cases lp <;> simp_all [applyLabel]
  | _ =>
      cases th <;> cases lp <;> cases st <;> cases de <;> cases le <;> cases se <;>
        cases sp <;> simp_all [applyLabel, cleanupExit, cancelLoopTimeout]

theorem run_not_dead (ls : List Label) (s : HeartbeatState)
    (hb : ∀ l ∈ ls, benign l = true) (h : s.loopPc ≠ LoopPc.dead) :
    (run s ls).loopPc ≠ LoopPc.dead := by
  induction ls generalizing s with
  | nil => exact h
  | cons l ls ih =>
      rw [run_cons]
      refine ih (applyLabel s l) (fun l' hl' => hb l' (List.mem_cons_of_mem l hl')) ?_
      intro hd
      exact h (loopPc_dead_mono s l (hb l (List.mem_cons_self l ls)) hd)

/-- The polling interval never changes. -/
theorem timeoutInSeconds_applyLabel (s : HeartbeatState) (l : Label) :
    (applyLabel s l).timeoutInSeconds = s.timeoutInSeconds := by
  obtain ⟨st, le, se, th, tm, lp, sp, pl, no, ti, de⟩ := s
  cases l with
  | fireL i =>
      rcases hti : timerAt tm i with _ | t
      · simp [applyLabel, hti]
      · by_cases hg : t.status = TimerStatus.pending ∧ t.deadline ≤ no <;>
          simp [applyLabel, hti, hg]
  | pulseDoneL r =>
      rcases r with e | u
      · cases lp <;> by_cases hc : caughtByLoop e = true <;> simp_all [applyLabel]
      · cases lp <;> simp_all [applyLabel]
  | _ =>
      cases th <;> cases lp <;> cases st <;> cases de <;> cases le <;> cases se <;>
        cases sp <;> simp_all [applyLabel, cleanupExit, cancelLoopTimeout]

theorem timeoutInSeconds_run (T : Nat) (ls : List Label) :
    (run (init T) ls).timeoutInSeconds = T := by
  have := run_invariant (P := fun s => s.timeoutInSeconds = T)
    (fun s l h => by
      show (applyLabel s l).timeoutInSeconds = T
      rw [timeoutInSeconds_applyLabel]; exact h) ls (init T) rfl
  exact this

/-- Claim C5: in any run whose pulse outcomes are all caught
(`ProtocolError`s), the loop never dies; and from any reachable state with
a pulse in flight, a `ProtocolError` outcome returns the loop to the top of
its `while` (the exception is swallowed), after which — absent a stop
request — the loop arms the next timer and executes the next cycle: one
timeout later the next pulse begins, right on schedule. -/
theorem loop_survives_protocol_error (T : Nat) (ls : List Label) (m : String)
    (hb : ∀ l ∈ ls, benign l = true) :
    (run (init T) ls).loopPc ≠ LoopPc.dead ∧
    ((run (init T) ls).loopPc = LoopPc.pulsing →
      (applyLabel (run (init T) ls)
          (Label.pulseDoneL (Except.error (Exc.pyvlxException m)))).loopPc =
        LoopPc.atWhile ∧
      ((run (init T) ls).stopped = false →
        (run (run (init T) ls)
            [Label.pulseDoneL (Except.error (Exc.pyvlxException m)),
             Label.loopRunL, Label.advanceL T,
             Label.fireL (run (init T) ls).timers.length,
             Label.loopRunL]).pulseLog =
          (run (init T) ls).pulseLog ++ [(run (init T) ls).now + T])) := by
  have hT : (run (init T) ls).timeoutInSeconds = T := timeoutInSeconds_run T ls
  refine ⟨run_not_dead ls (init T) hb (by simp [init]), ?_⟩
  intro hp
  set s := run (init T) ls with hs
  have e1 : applyLabel s (Label.pulseDoneL (Except.error (Exc.pyvlxException m))) =
      { s with loopPc := LoopPc.atWhile } := by
    simp [applyLabel, hp, caughtByLoop]
  refine ⟨by rw [e1], ?_⟩
  intro hstf
  have e2 : applyLabel { s with loopPc := LoopPc.atWhile } Label.loopRunL =
      { s with loopPc := LoopPc.waiting,
               timers := s.timers ++
                 [{ status := TimerStatus.pending, deadline := s.now + T }],
               timeoutHandle := some s.timers.length } := by
    simp [applyLabel, hstf, hT]
  have e3 : applyLabel
      { s with loopPc := LoopPc.waiting,
               timers := s.timers ++
                 [{ status := TimerStatus.pending, deadline := s.now + T }],
               timeoutHandle := some s.timers.length } (Label.advanceL T) =
      { s with loopPc := LoopPc.waiting,
               timers := s.timers ++
                 [{ status := TimerStatus.pending, deadline := s.now + T }],
               timeoutHandle := some s.timers.length,
               now := s.now + T } := by
    simp [applyLabel]
  have e4 : applyLabel
      { s with loopPc := LoopPc.waiting,
               timers := s.timers ++
                 [{ status := TimerStatus.pending, deadline := s.now + T }],
               timeoutHandle := some s.timers.length,
               now := s.now + T } (Label.fireL s.timers.length) =
      { s with loopPc := LoopPc.waiting,
               timers := markTimer
                 (s.timers ++
                   [{ status := TimerStatus.pending, deadline := s.now + T }])
                 s.timers.length (fun _ => TimerStatus.fired),
               timeoutHandle := some s.timers.length,
               now := s.now + T,
               loopEvent := true } := by
    simp only [applyLabel]
    rw [timerAt_append_one]
    simp
  have e5 : applyLabel
      { s with loopPc := LoopPc.waiting,
               timers := markTimer
                 (s.timers ++
                   [{ status := TimerStatus.pending, deadline := s.now + T }])
                 s.timers.length (fun _ => TimerStatus.fired),
               timeoutHandle := some s.timers.length,
               now := s.now + T,
               loopEvent := true } Label.loopRunL =
      { s with loopPc := LoopPc.pulsing,
               timers := markTimer
                 (s.timers ++
                   [{ status := TimerStatus.pending, deadline := s.now + T }])
                 s.timers.length (fun _ => TimerStatus.fired),
               timeoutHandle := some s.timers.length,
               now := s.now + T,
               loopEvent := false,
               pulseLog := s.pulseLog ++ [s.now + T] } := by
    simp [applyLabel, hstf]
  show (applyLabel (applyLabel (applyLabel (applyLabel (applyLabel s
      (Label.pulseDoneL (Except.error (Exc.pyvlxException m)))) Label.loopRunL)
      (Label.advanceL T)) (Label.fireL s.timers.length)) Label.loopRunL).pulseLog =
    s.pulseLog ++ [s.now + T]
  rw [e1, e2, e3, e4, e5]

/-- In a state whose loop task died with the timer-release code skipped,
nothing can ever set the stop-complete signal again, so `stop()` can never
return. -/
def DeadStuck (s : HeartbeatState) : Prop :=
  s.loopPc = LoopPc.dead ∧ s.stoppedEvent = false ∧ s.stopPc ≠ StopPc.returned

theorem deadStuck_step (s : HeartbeatState) (l : Label)
    (hl : l ≠ Label.startL) (h : DeadStuck s) : DeadStuck (applyLabel s l) := by
  obtain ⟨hpc, hse, hsp⟩ := h
  cases l with
  | startL => exact absurd rfl hl
  | stopCallL =>
      by_cases hg : s.stopPc = StopPc.notCalled ∧ s.destroyed = false
      · have happ : applyLabel s Label.stopCallL =
            { s with stopped := true, loopEvent := true,
                     stopPc := StopPc.waitingStopped } := by
          simp [applyLabel, hg.1, hg.2]
        rw [happ]
        exact ⟨hpc, hse, by simp⟩
      · have hno : applyLabel s Label.stopCallL = s := by simp [applyLabel, hg]
        rw [hno]
        exact ⟨hpc, hse, hsp⟩
  | stopResumeL =>
      have hg : ¬(s.stopPc = StopPc.waitingStopped ∧ s.stoppedEvent = true) := by
        simp [hse]
      have hno : applyLabel s Label.stopResumeL = s := by simp [applyLabel, hg]
      rw [hno]
      exact ⟨hpc, hse, hsp⟩
  | loopRunL =>
      have hno : applyLabel s Label.loopRunL = s := by simp [applyLabel, hpc]
      rw [hno]
      exact ⟨hpc, hse, hsp⟩
  | pulseDoneL r =>
      have hno : applyLabel s (Label.pulseDoneL r) = s := by
        cases r <;> simp [applyLabel, hpc]
      rw [hno]
      exact ⟨hpc, hse, hsp⟩
  | fireL i =>
      rcases hti : timerAt s.timers i with _ | t
      · have hno : applyLabel s (Label.fireL i) = s := by simp [applyLabel, hti]
        rw [hno]
        exact ⟨hpc, hse, hsp⟩
      · by_cases hg : t.status = TimerStatus.pending ∧ t.deadline ≤ s.now
        · have happ : applyLabel s (Label.fireL i) =
              { s with timers := markTimer s.timers i (fun _ => TimerStatus.fired),
                       loopEvent := true } := by
            simp [applyLabel, hti, hg.1, hg.2]
          rw [happ]
          exact ⟨hpc, hse, hsp⟩
        · have hno : applyLabel s (Label.fireL i) = s := by simp [applyLabel, hti, hg]
          rw [hno]
          exact ⟨hpc, hse, hsp⟩
  | advanceL d =>
      have happ : applyLabel s (Label.advanceL d) = { s with now := s.now + d } := by
        simp [applyLabel]
      rw [happ]
      exact ⟨hpc, hse, hsp⟩
  | destroyL =>
      by_cases hg : s.destroyed = false ∧
          (s.loopPc = LoopPc.noTask ∨ s.loopPc = LoopPc.finished ∨
            s.loopPc = LoopPc.dead) ∧ s.stopPc ≠ StopPc.waitingStopped
      · have happ : applyLabel s Label.destroyL =
            { cancelLoopTimeout s with destroyed := true } := by
          simp only [applyLabel]
          rw [if_pos hg]
        rw [happ]
        refine ⟨by simpa using hpc, by simpa using hse, by simpa using hsp⟩
      · have hno : applyLabel s Label.destroyL = s := by
          simp only [applyLabel]
          rw [if_neg hg]
        rw [hno]
        exact ⟨hpc, hse, hsp⟩

/-- Claim C10: the loop catches exactly the library's `PyVLXException`: a
caught outcome returns the loop to its `while`, while any other exception
kills the task right there — the cancel-and-signal exit code never runs
(timer list and handle are untouched, the stop-complete signal stays
unset), and afterwards — absent a fresh `start()`, which would build a new
loop task — no continuation can ever complete a `stop()` call: its caller
would suspend forever. -/
theorem loop_catches_only_pyvlx_exception (T : Nat) (ls ls' : List Label)
    (m : String)
    (hp : (run (init T) ls).loopPc = LoopPc.pulsing)
    (he : (run (init T) ls).stoppedEvent = false)
    (hnr : (run (init T) ls).stopPc ≠ StopPc.returned)
    (hns : Label.startL ∉ ls') :
    (applyLabel (run (init T) ls)
        (Label.pulseDoneL (Except.error (Exc.pyvlxException m)))).loopPc =
      LoopPc.atWhile ∧
    (applyLabel (run (init T) ls)
        (Label.pulseDoneL (Except.error Exc.otherExc))).loopPc = LoopPc.dead ∧
    (applyLabel (run (init T) ls)
        (Label.pulseDoneL (Except.error Exc.otherExc))).timers =
      (run (init T) ls).timers ∧
    (applyLabel (run (init T) ls)
        (Label.pulseDoneL (Except.error Exc.otherExc))).timeoutHandle =
      (run (init T) ls).timeoutHandle ∧
    (run (applyLabel (run (init T) ls)
        (Label.pulseDoneL (Except.error Exc.otherExc))) ls').stoppedEvent = false ∧
    (run (applyLabel (run (init T) ls)
        (Label.pulseDoneL (Except.error Exc.otherExc))) ls').stopPc ≠
      StopPc.returned ∧
    (run (applyLabel (run (init T) ls)
        (Label.pulseDoneL (Except.error Exc.otherExc))) ls').loopPc =
      LoopPc.dead := by
  set s := run (init T) ls with hs
  have e1 : applyLabel s (Label.pulseDoneL (Except.error (Exc.pyvlxException m))) =
      { s with loopPc := LoopPc.atWhile } := by
    simp [applyLabel, hp, caughtByLoop]
  have e2 : applyLabel s (Label.pulseDoneL (Except.error Exc.otherExc)) =
      { s with loopPc := LoopPc.dead } := by
    simp [applyLabel, hp, caughtByLoop]
  have h0 : DeadStuck { s with loopPc := LoopPc.dead } := ⟨rfl, he, hnr⟩
  have hrun := run_invariant_cond (Q := fun l => l ≠ Label.startL)
    (fun s' l' hl' h' => deadStuck_step s' l' hl' h') ls' _
    (fun l hl heq => hns (heq ▸ hl)) h0
  rw [e1, e2]
  exact ⟨rfl, rfl, rfl, rfl, hrun.2.1, hrun.2.2, hrun.1⟩

/-! ## Claim C8: timing of the first pulse -/

theorem timerAt_ge_length (ts : List Timer) (i : Nat) (h : ts.length ≤ i) :
    timerAt ts i = none := by
  induction ts generalizing i with
  | nil => cases i <;> rfl
  | cons t ts ih =>
      cases i with
      | zero => simp at h
      | succ n => exact ih n (by simpa using h)

theorem timerAt_lt_length (ts : List Timer) (i : Nat) (t : Timer)
    (h : timerAt ts i = some t) : i < ts.length := by
  by_contra hc
  rw [timerAt_ge_length ts i (by omega)] at h
  cases h

/-- Timing invariant, relative to a polling interval `T`: every timer's
deadline lies at least `T` in the future of its arming; a fired timer's
deadline has passed; the wake signal (absent a stop) witnesses a fired
timer; every logged pulse began at or after `T` and not in the future. -/
structure TimedInv (T : Nat) (s : HeartbeatState) : Prop where
  f0 : s.timeoutInSeconds = T
  f1 : ∀ i t, timerAt s.timers i = some t → T ≤ t.deadline
  f2 : ∀ i t, timerAt s.timers i = some t → t.status = TimerStatus.fired →
        t.deadline ≤ s.now
  f3 : s.loopEvent = true → s.stopped = true ∨
        ∃ i t, timerAt s.timers i = some t ∧ t.status = TimerStatus.fired
  f4 : ∀ x ∈ s.pulseLog, T ≤ x ∧ x ≤ s.now
  f5 : s.loopPc ≠ LoopPc.noTask

theorem timedInv_cancelLoopTimeout (T : Nat) (s : HeartbeatState)
    (h1 : ∀ i t, timerAt s.timers i = some t → T ≤ t.deadline)
    (h2 : ∀ i t, timerAt s.timers i = some t → t.status = TimerStatus.fired →
      t.deadline ≤ s.now) :
    (∀ i t, timerAt (cancelLoopTimeout s).timers i = some t → T ≤ t.deadline) ∧
    (∀ i t, timerAt (cancelLoopTimeout s).timers i = some t →
      t.status = TimerStatus.fired → t.deadline ≤ s.now) ∧
    (∀ i t, timerAt s.timers i = some t → t.status = TimerStatus.fired →
      ∃ j u, timerAt (cancelLoopTimeout s).timers j = some u ∧
        u.status = TimerStatus.fired) := by
  cases hth : s.timeoutHandle with
  | none =>
      simp only [cancelLoopTimeout, hth]
      exact ⟨h1, h2, fun i t ht hf => ⟨i, t, ht, hf⟩⟩
  | some k =>
      simp only [cancelLoopTimeout, hth]
      refine ⟨?_, ?_, ?_⟩
      · intro i t ht
        rw [timerAt_markTimer] at ht
        by_cases hik : i = k
        · rw [if_pos hik] at ht
          cases hu : timerAt s.timers k with
          | none => rw [hu] at ht; cases ht
          | some u =>
              rw [hu] at ht
              simp only [Option.map_some'] at ht
              injection ht with ht'
              subst ht'
              exact h1 k u hu
        · rw [if_neg hik] at ht
          exact h1 i t ht
      · intro i t ht hf
        rw [timerAt_markTimer] at ht
        by_cases hik : i = k
        · rw [if_pos hik] at ht
          cases hu : timerAt s.timers k with
          | none => rw [hu] at ht; cases ht
          | some u =>
              rw [hu] at ht
              simp only [Option.map_some'] at ht
              injection ht with ht'
              subst ht'
              simp only at hf
              have hfu : u.status = TimerStatus.fired := by
                cases hsu : u.status <;> rw [hsu] at hf <;>
                  simp [cancelStatus] at hf
              exact h2 k u hu hfu
        · rw [if_neg hik] at ht
          exact h2 i t ht hf
      · intro i t ht hf
        by_cases hik : i = k
        · refine ⟨i, { t with status := cancelStatus t.status }, ?_, ?_⟩
          · rw [timerAt_markTimer, if_pos hik, ← hik, ht]
            rfl
          · simp only [hf, cancelStatus]
        · exact ⟨i, t, by rw [timerAt_markTimer, if_neg hik]; exact ht, hf⟩

theorem timedInv_step (T : Nat) (s : HeartbeatState) (l : Label)
    (hl : l ≠ Label.startL) (h : TimedInv T s) : TimedInv T (applyLabel s l) := by
  obtain ⟨f0, f1, f2, f3, f4, f5⟩ := h
  cases l with
  | startL => exact absurd rfl hl
  | stopCallL =>
      by_cases hg : s.stopPc = StopPc.notCalled ∧ s.destroyed = false
      · have happ : applyLabel s Label.stopCallL =
            { s with stopped := true, loopEvent := true,
                     stopPc := StopPc.waitingStopped } := by
          simp [applyLabel, hg.1, hg.2]
        rw [happ]
        exact ⟨f0, f1, f2, fun _ => Or.inl rfl, f4, f5⟩
      · have hno : applyLabel s Label.stopCallL = s := by simp [applyLabel, hg]
        rw [hno]
        exact ⟨f0, f1, f2, f3, f4, f5⟩
  | stopResumeL =>
      by_cases hg : s.stopPc = StopPc.waitingStopped ∧ s.stoppedEvent = true
      · have happ : applyLabel s Label.stopResumeL =
            { s with stopPc := StopPc.returned } := by
          simp [applyLabel, hg.1, hg.2]
        rw [happ]
        exact ⟨f0, f1, f2, f3, f4, f5⟩
      · have hno : applyLabel s Label.stopResumeL = s := by simp [applyLabel, hg]
        rw [hno]
        exact ⟨f0, f1, f2, f3, f4, f5⟩
  | loopRunL =>
      rcases hpc : s.loopPc with _ | _ | _ | _ | _ | _
      case noTask => exact absurd hpc f5
      case atWhile =>
        by_cases hst : s.stopped = true
        · have happ : applyLabel s Label.loopRunL = cleanupExit s := by
            simp [applyLabel, hpc, hst]
          rw [happ]
          obtain ⟨g1, g2, g3⟩ := timedInv_cancelLoopTimeout T s f1 f2
          refine ⟨by simpa [cleanupExit] using f0, ?_, ?_, ?_, ?_, ?_⟩
          · intro i t ht
            exact g1 i t ht
          · intro i t ht hf
            simpa [cleanupExit] using g2 i t ht hf
          · intro _
            left
            simpa [cleanupExit] using hst
          · intro x hx
            have := f4 x (by simpa [cleanupExit] using hx)
            simpa [cleanupExit] using this
          · simp [cleanupExit]
        · have hstf : s.stopped = false := by
            cases hsb : s.stopped
            · rfl
            · exact absurd hsb hst
          have happ : applyLabel s Label.loopRunL =
              { s with
                  timers := s.timers ++
                    [{ status := TimerStatus.pending,
                       deadline := s.now + s.timeoutInSeconds }],
                  timeoutHandle := some s.timers.length,
                  loopPc := LoopPc.waiting } := by
            simp [applyLabel, hpc, hstf]
          rw [happ]
          refine ⟨f0, ?_, ?_, ?_, f4, by simp⟩
          · intro i t ht
            simp only at ht
            rw [timerAt_append_one] at ht
            by_cases hi : i = s.timers.length
            · rw [if_pos hi] at ht
              injection ht with ht'
              subst ht'
              simp only [f0]
              omega
            · rw [if_neg hi] at ht
              exact f1 i t ht
          · intro i t ht hf
            simp only at ht
            rw [timerAt_append_one] at ht
            by_cases hi : i = s.timers.length
            · rw [if_pos hi] at ht
              injection ht with ht'
              subst ht'
              cases hf
            · rw [if_neg hi] at ht
              exact f2 i t ht hf
          · intro hle
            simp only at hle
            rcases f3 hle with hsb | ⟨i, t, ht, hf⟩
            · exact Or.inl hsb
            · refine Or.inr ⟨i, t, ?_, hf⟩
              have hlt := timerAt_lt_length s.timers i t ht
              simp only
              rw [timerAt_append_one, if_neg (by omega)]
              exact ht
      case waiting =>
        by_cases hev : s.loopEvent = true
        · by_cases hst : s.stopped = true
          · have happ : applyLabel s Label.loopRunL = cleanupExit s := by
              simp [applyLabel, hpc, hev, hst]
            rw [happ]
            obtain ⟨g1, g2, _⟩ := timedInv_cancelLoopTimeout T s f1 f2
            refine ⟨by simpa [cleanupExit] using f0, g1, ?_, ?_, ?_, ?_⟩
            · intro i t ht hf
              simpa [cleanupExit] using g2 i t ht hf
            · intro _
              left
              simpa [cleanupExit] using hst
            · intro x hx
              have := f4 x (by simpa [cleanupExit] using hx)
              simpa [cleanupExit] using this
            · simp [cleanupExit]
          · have hstf : s.stopped = false := by
              cases hsb : s.stopped
              · rfl
              · exact absurd hsb hst
            have happ : applyLabel s Label.loopRunL =
                { s with loopEvent := false, loopPc := LoopPc.pulsing,
                         pulseLog := s.pulseLog ++ [s.now] } := by
              simp [applyLabel, hpc, hev, hstf]
            rw [happ]
            have hTnow : T ≤ s.now := by
              rcases f3 hev with hsb | ⟨i, t, ht, hf⟩
              · rw [hstf] at hsb; cases hsb
              · exact le_trans (f1 i t ht) (f2 i t ht hf)
            refine ⟨f0, f1, f2, by intro hle; simp at hle, ?_, by simp⟩
            intro x hx
            simp only at hx
            rw [List.mem_append] at hx
            rcases hx with hx | hx
            · exact f4 x hx
            · simp only [List.mem_singleton] at hx
              subst hx
              exact ⟨hTnow, le_refl _⟩
        · have hno : applyLabel s Label.loopRunL = s := by
            simp [applyLabel, hpc, hev]
          rw [hno]
          exact ⟨f0, f1, f2, f3, f4, f5⟩
      case pulsing =>
        have hno : applyLabel s Label.loopRunL = s := by simp [applyLabel, hpc]
        rw [hno]
        exact ⟨f0, f1, f2, f3, f4, f5⟩
      case finished =>
        have hno : applyLabel s Label.loopRunL = s := by simp [applyLabel, hpc]
        rw [hno]
        exact ⟨f0, f1, f2, f3, f4, f5⟩
      case dead =>
        have hno : applyLabel s Label.loopRunL = s := by simp [applyLabel, hpc]
        rw [hno]
        exact ⟨f0, f1, f2, f3, f4, f5⟩
  | pulseDoneL r =>
      by_cases hg : s.loopPc = LoopPc.pulsing
      · have main : ∀ pc' : LoopPc, pc' ≠ LoopPc.noTask →
            TimedInv T { s with loopPc := pc' } := by
          intro pc' hpc'
          exact ⟨f0, f1, f2, f3, f4, hpc'⟩
        rcases r with e | u
        · by_cases hc : caughtByLoop e = true
          · have happ : applyLabel s (Label.pulseDoneL (Except.error e)) =
                { s with loopPc := LoopPc.atWhile } := by
              simp [applyLabel, hg, hc]
            rw [happ]
            exact main LoopPc.atWhile (by simp)
          · have happ : applyLabel s (Label.pulseDoneL (Except.error e)) =
                { s with loopPc := LoopPc.dead } := by
              simp [applyLabel, hg, hc]
            rw [happ]
            exact main LoopPc.dead (by simp)
        · have happ : applyLabel s (Label.pulseDoneL (Except.ok u)) =
              { s with loopPc := LoopPc.atWhile } := by
            simp [applyLabel, hg]
          rw [happ]
          exact main LoopPc.atWhile (by simp)
      · have hno : applyLabel s (Label.pulseDoneL r) = s := by
          cases r <;> simp [applyLabel, hg]
        rw [hno]
        exact ⟨f0, f1, f2, f3, f4, f5⟩
  | fireL i =>
      rcases hti : timerAt s.timers i with _ | t
      · have hno : applyLabel s (Label.fireL i) = s := by simp [applyLabel, hti]
        rw [hno]
        exact ⟨f0, f1, f2, f3, f4, f5⟩
      · by_cases hg : t.status = TimerStatus.pending ∧ t.deadline ≤ s.now
        · have happ : applyLabel s (Label.fireL i) =
              { s with timers := markTimer s.timers i (fun _ => TimerStatus.fired),
                       loopEvent := true } := by
            simp [applyLabel, hti, hg.1, hg.2]
          rw [happ]
          refine ⟨f0, ?_, ?_, ?_, f4, f5⟩
          · intro j u hu
            simp only at hu
            rw [timerAt_markTimer] at hu
            by_cases hji : j = i
            · rw [if_pos hji, hti] at hu
              simp only [Option.map_some'] at hu
              injection hu with hu'
              subst hu'
              exact f1 i t hti
            · rw [if_neg hji] at hu
              exact f1 j u hu
          · intro j u hu _
            simp only at hu
            rw [timerAt_markTimer] at hu
            by_cases hji : j = i
            · rw [if_pos hji, hti] at hu
              simp only [Option.map_some'] at hu
              injection hu with hu'
              subst hu'
              simpa using hg.2
            · rw [if_neg hji] at hu
              exact f2 j u hu ‹u.status = TimerStatus.fired›
          · intro _
            refine Or.inr ⟨i, { t with status := TimerStatus.fired }, ?_, rfl⟩
            simp only
            rw [timerAt_markTimer, if_pos rfl, hti]
            rfl
        · have hno : applyLabel s (Label.fireL i) = s := by simp [applyLabel, hti, hg]
          rw [hno]
          exact ⟨f0, f1, f2, f3, f4, f5⟩
  | advanceL d =>
      have happ : applyLabel s (Label.advanceL d) = { s with now := s.now + d } := by
        simp [applyLabel]
      rw [happ]
      refine ⟨f0, f1, ?_, f3, ?_, f5⟩
      · intro i t ht hf
        have := f2 i t ht hf
        simp only
        omega
      · intro x hx
        have := f4 x hx
        simp only
        omega
  | destroyL =>
      by_cases hg : s.destroyed = false ∧
          (s.loopPc = LoopPc.noTask ∨ s.loopPc = LoopPc.finished ∨
            s.loopPc = LoopPc.dead) ∧ s.stopPc ≠ StopPc.waitingStopped
      · have happ : applyLabel s Label.destroyL =
            { cancelLoopTimeout s with destroyed := true } := by
          simp only [applyLabel]
          rw [if_pos hg]
        rw [happ]
        obtain ⟨g1, g2, g3⟩ := timedInv_cancelLoopTimeout T s f1 f2
        refine ⟨by simpa using f0, g1, ?_, ?_, ?_, ?_⟩
        · intro i t ht hf
          simpa using g2 i t ht hf
        · intro hle
          simp only [cancelLoopTimeout_loopEvent] at hle
          rcases f3 hle with hsb | ⟨i, t, ht, hf⟩
          · exact Or.inl (by simpa using hsb)
          · obtain ⟨j, u, hu, hfu⟩ := g3 i t ht hf
            exact Or.inr ⟨j, u, hu, hfu⟩
        · intro x hx
          have := f4 x (by simpa using hx)
          simpa using this
        · simpa using f5
      · have hno : applyLabel s Label.destroyL = s := by
          simp only [applyLabel]
          rw [if_neg hg]
        rw [hno]
        exact ⟨f0, f1, f2, f3, f4, f5⟩

theorem timedInv_startedInit (T : Nat) : TimedInv T (startedInit T) := by
  have happ : startedInit T =
      { init T with stopped := false, stoppedEvent := false,
                    loopPc := LoopPc.atWhile } := by
    simp [startedInit, applyLabel, init]
  rw [happ]
  refine ⟨rfl, ?_, ?_, ?_, ?_, ?_⟩ <;>
    first
      | (intro i t ht hf; simp [init, timerAt] at ht)
      | (intro i t ht; simp [init, timerAt] at ht)
      | simp [init]

/-- Claim C8, amended: `start()` on any not-Running supervisor (never
started, loop exited, or loop dead) clears the stop flag and the
stop-complete signal, creates the loop task, and returns without a pulse
having run; and on a supervisor that was never started (the start that
produced it is its only one, so no stale wake signal can exist) no pulse
can begin before one full timeout has elapsed.  (After a consumed
`stop()`, a restarted loop instead pulses immediately off the stale wake
signal; see the counterexample.) -/
theorem start_launches_loop_and_first_pulse_waits (T : Nat)
    (su : HeartbeatState) (ls : List Label)
    (h1 : su.loopPc = LoopPc.noTask ∨ su.loopPc = LoopPc.finished ∨
      su.loopPc = LoopPc.dead)
    (h2 : su.destroyed = false)
    (hns : Label.startL ∉ ls) :
    (applyLabel su Label.startL).stopped = false ∧
    (applyLabel su Label.startL).stoppedEvent = false ∧
    (applyLabel su Label.startL).loopPc = LoopPc.atWhile ∧
    (applyLabel su Label.startL).pulseLog = su.pulseLog ∧
    (0 < (run (startedInit T) ls).pulseLog.length →
      T ≤ (run (startedInit T) ls).now) := by
  have happ : applyLabel su Label.startL =
      { su with stopped := false, stoppedEvent := false,
                loopPc := LoopPc.atWhile } := by
    simp only [applyLabel]
    rw [if_pos ⟨h1, h2⟩]
  refine ⟨by rw [happ], by rw [happ], by rw [happ], by rw [happ], ?_⟩
  intro hlen
  have hinv := run_invariant_cond (Q := fun l => l ≠ Label.startL)
    (fun s l hl h => timedInv_step T s l hl h) ls _
    (fun l hl he => hns (he ▸ hl)) (timedInv_startedInit T)
  obtain ⟨x, hx⟩ := List.exists_mem_of_length_pos hlen
  exact le_trans (hinv.f4 x hx).1 (hinv.f4 x hx).2

/-- Counterexample to claim C8 as stated: the second `start()` below runs
on a supervisor that is not Running (its loop exited after a completed
`stop()`), yet the restarted loop's first pulse begins at simulated time 0
— before the 5-second timeout has elapsed — because the wake signal set by
`stop()` was never cleared. -/
theorem restarted_supervisor_pulses_immediately :
    (run (init 5) [Label.startL, Label.stopCallL, Label.loopRunL,
      Label.stopResumeL]).loopPc = LoopPc.finished ∧
    (run (init 5) [Label.startL, Label.stopCallL, Label.loopRunL,
      Label.stopResumeL, Label.startL, Label.loopRunL,
      Label.loopRunL]).pulseLog = [0] := by
  refine ⟨by decide, by decide⟩

/-! ## Claim C9: pulses at `T, 2T, 3T, …`

The canonical execution under a controllable clock with zero-time pulses:
each cycle arms the timer, lets exactly one timeout of simulated time
elapse, fires the due timer, wakes the loop (the pulse begins) and lets
the pulse succeed. -/

theorem markTimer_append_length (ts : List Timer) (x : Timer)
    (f : TimerStatus → TimerStatus) :
    markTimer (ts ++ [x]) ts.length f = ts ++ [{ x with status := f x.status }] := by
  induction ts with
  | nil => rfl
  | cons t ts ih => simp [markTimer, ih]

/-- One polling cycle of the canonical schedule (`i` is the index of the
timer armed in that cycle). -/
def cycleLabels (T i : Nat) : List Label :=
  [Label.loopRunL, Label.advanceL T, Label.fireL i, Label.loopRunL,
   Label.pulseDoneL (Except.ok ())]

/-- The canonical schedule: `k` polling cycles. -/
def pulseSchedule (T k : Nat) : List Label :=
  (List.range k).flatMap (fun i => cycleLabels T i)

/-- The supervisor state at the top of the `while` after `i` completed
cycles of the canonical schedule. -/
def cycleState (T i : Nat) : HeartbeatState :=
  { stopped := false, loopEvent := false, stoppedEvent := false,
    timeoutHandle := if i = 0 then none else some (i - 1),
    timers := (List.range i).map
      (fun j => { status := TimerStatus.fired, deadline := (j + 1) * T }),
    loopPc := LoopPc.atWhile, stopPc := StopPc.notCalled,
    pulseLog := (List.range i).map (fun j => (j + 1) * T),
    now := i * T, timeoutInSeconds := T, destroyed := false }

theorem cycleState_zero (T : Nat) : cycleState T 0 = startedInit T := by
  simp [cycleState, startedInit, applyLabel, init]

theorem run_cycle (T i : Nat) :
    run (cycleState T i) (cycleLabels T i) = cycleState T (i + 1) := by
  have hlen : ((List.range i).map
      (fun j => { status := TimerStatus.fired, deadline := (j + 1) * T } : Nat → Timer)).length = i := by
    simp
  have a1 : applyLabel (cycleState T i) Label.loopRunL =
      { cycleState T i with
          timers := (cycleState T i).timers ++
            [{ status := TimerStatus.pending, deadline := i * T + T }],
          timeoutHandle := some i,
          loopPc := LoopPc.waiting } := by
    simp [applyLabel, cycleState]
  have a2 : applyLabel
      { cycleState T i with
          timers := (cycleState T i).timers ++
            [{ status := TimerStatus.pending, deadline := i * T + T }],
          timeoutHandle := some i,
          loopPc := LoopPc.waiting } (Label.advanceL T) =
      { cycleState T i with
          timers := (cycleState T i).timers ++
            [{ status := TimerStatus.pending, deadline := i * T + T }],
          timeoutHandle := some i,
          loopPc := LoopPc.waiting,
          now := i * T + T } := by
    simp [applyLabel, cycleState]
  have a3 : applyLabel
      { cycleState T i with
          timers := (cycleState T i).timers ++
            [{ status := TimerStatus.pending, deadline := i * T + T }],
          timeoutHandle := some i,
          loopPc := LoopPc.waiting,
          now := i * T + T } (Label.fireL i) =
      { cycleState T i with
          timers := (cycleState T i).timers ++
            [{ status := TimerStatus.fired, deadline := i * T + T }],
          timeoutHandle := some i,
          loopPc := LoopPc.waiting,
          now := i * T + T,
          loopEvent := true } := by
    simp only [applyLabel]
    have hidx : timerAt ((cycleState T i).timers ++
        [{ status := TimerStatus.pending, deadline := i * T + T }]) i =
        some { status := TimerStatus.pending, deadline := i * T + T } := by
      rw [timerAt_append_one]
      simp [cycleState]
    rw [hidx]
    have hmark : markTimer ((cycleState T i).timers ++
        [{ status := TimerStatus.pending, deadline := i * T + T }]) i
        (fun _ => TimerStatus.fired) =
        (cycleState T i).timers ++
          [{ status := TimerStatus.fired, deadline := i * T + T }] := by
      have := markTimer_append_length (cycleState T i).timers
        { status := TimerStatus.pending, deadline := i * T + T }
        (fun _ => TimerStatus.fired)
      simpa [cycleState] using this
    simp [hmark]
  have a4 : applyLabel
      { cycleState T i with
          timers := (cycleState T i).timers ++
            [{ status := TimerStatus.fired, deadline := i * T + T }],
          timeoutHandle := some i,
          loopPc := LoopPc.waiting,
          now := i * T + T,
          loopEvent := true } Label.loopRunL =
      { cycleState T i with
          timers := (cycleState T i).timers ++
            [{ status := TimerStatus.fired, deadline := i * T + T }],
          timeoutHandle := some i,
          loopPc := LoopPc.pulsing,
          now := i * T + T,
          loopEvent := false,
          pulseLog := (cycleState T i).pulseLog ++ [i * T + T] } := by
    simp [applyLabel, cycleState]
  have a5 : applyLabel
      { cycleState T i with
          timers := (cycleState T i).timers ++
            [{ status := TimerStatus.fired, deadline := i * T + T }],
          timeoutHandle := some i,
          loopPc := LoopPc.pulsing,
          now := i * T + T,
          loopEvent := false,
          pulseLog := (cycleState T i).pulseLog ++ [i * T + T] }
      (Label.pulseDoneL (Except.ok ())) =
      { cycleState T i with
          timers := (cycleState T i).timers ++
            [{ status := TimerStatus.fired, deadline := i * T + T }],
          timeoutHandle := some i,
          loopPc := LoopPc.atWhile,
          now := i * T + T,
          loopEvent := false,
          pulseLog := (cycleState T i).pulseLog ++ [i * T + T] } := by
    simp [applyLabel]
  show applyLabel (applyLabel (applyLabel (applyLabel (applyLabel
      (cycleState T i) Label.loopRunL) (Label.advanceL T)) (Label.fireL i))
      Label.loopRunL) (Label.pulseDoneL (Except.ok ())) = cycleState T (i + 1)
  rw [a1, a2, a3, a4, a5]
  simp only [cycleState, List.range_succ, List.map_append, List.map_cons,
    List.map_nil]
  congr 1 <;> simp [Nat.succ_mul]

theorem run_pulseSchedule (T k : Nat) :
    run (startedInit T) (pulseSchedule T k) = cycleState T k := by
  induction k with
  | zero =>
      rw [cycleState_zero]
      rfl
  | succ n ih =>
      have hsched : pulseSchedule T (n + 1) =
          pulseSchedule T n ++ cycleLabels T n := by
        simp [pulseSchedule, List.range_succ]
      rw [hsched, run_append, ih, run_cycle]

/-- Claim C9: with `timeout = T` under the controllable clock (pulses take
zero simulated time), the canonical schedule makes the started supervisor
begin its pulses exactly at simulated times `T, 2T, 3T, …, kT`. -/
theorem pulses_at_multiples_of_timeout (T k : Nat) :
    (run (startedInit T) (pulseSchedule T k)).pulseLog =
      (List.range k).map (fun i => (i + 1) * T) := by
  rw [run_pulseSchedule]
  rfl

/-! ## Witnesses: the guarded theorems hold at concrete runs -/

theorem stop_returns_only_after_loop_exit_witness :
    (run (init 5) [Label.startL, Label.stopCallL, Label.loopRunL,
      Label.stopResumeL]).loopPc = LoopPc.finished ∧
    pendingCount (run (init 5) [Label.startL, Label.stopCallL, Label.loopRunL,
      Label.stopResumeL]).timers = 0 ∧
    (run (run (init 5) [Label.startL, Label.stopCallL, Label.loopRunL,
      Label.stopResumeL]) [Label.advanceL 7, Label.fireL 0, Label.loopRunL,
      Label.destroyL]).loopPc = LoopPc.finished ∧
    (run (run (init 5) [Label.startL, Label.stopCallL, Label.loopRunL,
      Label.stopResumeL]) [Label.advanceL 7, Label.fireL 0, Label.loopRunL,
      Label.destroyL]).timers =
      (run (init 5) [Label.startL, Label.stopCallL, Label.loopRunL,
        Label.stopResumeL]).timers ∧
    (run (run (init 5) [Label.startL, Label.stopCallL, Label.loopRunL,
      Label.stopResumeL]) [Label.advanceL 7, Label.fireL 0, Label.loopRunL,
      Label.destroyL]).pulseLog =
      (run (init 5) [Label.startL, Label.stopCallL, Label.loopRunL,
        Label.stopResumeL]).pulseLog :=
  stop_returns_only_after_loop_exit 5
    [Label.startL, Label.stopCallL, Label.loopRunL, Label.stopResumeL]
    [Label.advanceL 7, Label.fireL 0, Label.loopRunL, Label.destroyL]
    (by decide) (by decide) (by decide)

theorem single_pending_timer_after_start_witness :
    pendingCount (run (startedInit 3) []).timers ≤ 1 ∧
    pendingCount (run (startedInit 3) []).timers = 0 :=
  ⟨(single_pending_timer_after_start 3 [] (by decide)).1,
   (single_pending_timer_after_start 3 [] (by decide)).2 (by decide)⟩

theorem loop_survives_protocol_error_witness :
    (run (init 1) [Label.startL, Label.loopRunL, Label.advanceL 1,
      Label.fireL 0, Label.loopRunL]).loopPc ≠ LoopPc.dead ∧
    (applyLabel (run (init 1) [Label.startL, Label.loopRunL, Label.advanceL 1,
        Label.fireL 0, Label.loopRunL])
        (Label.pulseDoneL (Except.error
          (Exc.pyvlxException "Unable to send get state.")))).loopPc =
      LoopPc.atWhile ∧
    (run (run (init 1) [Label.startL, Label.loopRunL, Label.advanceL 1,
        Label.fireL 0, Label.loopRunL])
        [Label.pulseDoneL (Except.error
           (Exc.pyvlxException "Unable to send get state.")),
         Label.loopRunL, Label.advanceL 1,
         Label.fireL (run (init 1) [Label.startL, Label.loopRunL,
           Label.advanceL 1, Label.fireL 0, Label.loopRunL]).timers.length,
         Label.loopRunL]).pulseLog =
      (run (init 1) [Label.startL, Label.loopRunL, Label.advanceL 1,
        Label.fireL 0, Label.loopRunL]).pulseLog ++
        [(run (init 1) [Label.startL, Label.loopRunL, Label.advanceL 1,
          Label.fireL 0, Label.loopRunL]).now + 1] := by
  have h := loop_survives_protocol_error 1
    [Label.startL, Label.loopRunL, Label.advanceL 1, Label.fireL 0,
     Label.loopRunL] "Unable to send get state." (by decide)
  exact ⟨h.1, (h.2 (by decide)).1, (h.2 (by decide)).2 (by decide)⟩

theorem start_launches_loop_and_first_pulse_waits_witness :
    (applyLabel (init 2) Label.startL).stopped = false ∧
    (applyLabel (init 2) Label.startL).stoppedEvent = false ∧
    (applyLabel (init 2) Label.startL).loopPc = LoopPc.atWhile ∧
    (applyLabel (init 2) Label.startL).pulseLog = (init 2).pulseLog ∧
    2 ≤ (run (startedInit 2) (pulseSchedule 2 1)).now := by
  have h := start_launches_loop_and_first_pulse_waits 2 (init 2)
    (pulseSchedule 2 1) (Or.inl rfl) rfl (by decide)
  exact ⟨h.1, h.2.1, h.2.2.1, h.2.2.2.1, h.2.2.2.2 (by decide)⟩

theorem loop_catches_only_pyvlx_exception_witness :
    (applyLabel (run (init 1) [Label.startL, Label.loopRunL, Label.advanceL 1,
        Label.fireL 0, Label.loopRunL])
        (Label.pulseDoneL (Except.error (Exc.pyvlxException "boom")))).loopPc =
      LoopPc.atWhile ∧
    (applyLabel (run (init 1) [Label.startL, Label.loopRunL, Label.advanceL 1,
        Label.fireL 0, Label.loopRunL])
        (Label.pulseDoneL (Except.error Exc.otherExc))).loopPc = LoopPc.dead ∧
    (applyLabel (run (init 1) [Label.startL, Label.loopRunL, Label.advanceL 1,
        Label.fireL 0, Label.loopRunL])
        (Label.pulseDoneL (Except.error Exc.otherExc))).timers =
      (run (init 1) [Label.startL, Label.loopRunL, Label.advanceL 1,
        Label.fireL 0, Label.loopRunL]).timers ∧
    (applyLabel (run (init 1) [Label.startL, Label.loopRunL, Label.advanceL 1,
        Label.fireL 0, Label.loopRunL])
        (Label.pulseDoneL (Except.error Exc.otherExc))).timeoutHandle =
      (run (init 1) [Label.startL, Label.loopRunL, Label.advanceL 1,
        Label.fireL 0, Label.loopRunL]).timeoutHandle ∧
    (run (applyLabel (run (init 1) [Label.startL, Label.loopRunL,
        Label.advanceL 1, Label.fireL 0, Label.loopRunL])
        (Label.pulseDoneL (Except.error Exc.otherExc)))
        [Label.stopCallL, Label.advanceL 5, Label.stopResumeL,
         Label.loopRunL]).stoppedEvent = false ∧
    (run (applyLabel (run (init 1) [Label.startL, Label.loopRunL,
        Label.advanceL 1, Label.fireL 0, Label.loopRunL])
        (Label.pulseDoneL (Except.error Exc.otherExc)))
        [Label.stopCallL, Label.advanceL 5, Label.stopResumeL,
         Label.loopRunL]).stopPc ≠ StopPc.returned ∧
    (run (applyLabel (run (init 1) [Label.startL, Label.loopRunL,
        Label.advanceL 1, Label.fireL 0, Label.loopRunL])
        (Label.pulseDoneL (Except.error Exc.otherExc)))
        [Label.stopCallL, Label.advanceL 5, Label.stopResumeL,
         Label.loopRunL]).loopPc = LoopPc.dead :=
  loop_catches_only_pyvlx_exception 1
    [Label.startL, Label.loopRunL, Label.advanceL 1, Label.fireL 0,
     Label.loopRunL]
    [Label.stopCallL, Label.advanceL 5, Label.stopResumeL, Label.loopRunL]
    "boom" (by decide) (by decide) (by decide) (by decide)

end Pyvlx
